import Mathlib

/-!
Verification of the `TaskMasterTools` request/task/subtask lifecycle tracker
(`src/main/tools/task.py`).

Shallow embedding conventions:
* Python dicts `self.requests`, `self.tasks`, `self.subtasks` are association
  lists `List (String × _)` with `mget` / `mset` / `merase` mirroring
  `d[k]` lookup, `d[k] = v` assignment, and `del d[k]`.
* Status / priority / event / role enum *values* are the strings the Python
  code stores (`Status.PENDING.value = "PENDING"` etc.).
* `datetime.now().isoformat()` timestamps are modelled as rational time
  points (seconds); every operation that records a timestamp takes the
  current time as an explicit `now : ℚ` argument.
  `datetime.fromisoformat(_).timestamp()` subtraction becomes rational
  subtraction; the `try/except` parse-failure branch of
  `_calculate_execution_time` cannot fire in this model because every stored
  timestamp is a valid time point.
* Methods that `raise ValueError` return `Except.error msg`; normal returns
  are `Except.ok (status, newState)` where `status` is the `"status"` field
  of the returned dict (plus the returned task summary for `get_next_task`).
* MLflow logging and artifact-file writes are external side effects that do
  not touch the three in-memory mappings; they are not modelled.
-/

namespace TaskMaster

/-! ### Enum values (`Priority`, `Status`, `Event`, `ApprovalRole`) -/

def Priority.HIGH : String := "HIGH"

def Priority.MEDIUM : String := "MEDIUM"

def Priority.LOW : String := "LOW"

def Status.PENDING : String := "PENDING"

def Status.IN_PROGRESS : String := "IN_PROGRESS"

def Status.COMPLETED : String := "COMPLETED"

def Status.FAILED : String := "FAILED"

def Event.COMPLETED : String := "COMPLETED"

def Event.FAILED : String := "FAILED"

def ApprovalRole.AUTO : String := "AUTO"

def ApprovalRole.AGENT : String := "AGENT"

/-! ### String-keyed maps (Python dict operations used by the tracker) -/

/-- Dict lookup `m[k]` / `k in m`: first binding of `k`, if any. -/
def mget {β : Type} (k : String) : List (String × β) → Option β
  | [] => none
  | (k', v) :: rest => if k' == k then some v else mget k rest

/-- Dict assignment `m[k] = v`: replace the first binding of `k`, else append. -/
def mset {β : Type} (k : String) (v : β) : List (String × β) → List (String × β)
  | [] => [(k, v)]
  | (k', v') :: rest => if k' == k then (k, v) :: rest else (k', v') :: mset k v rest

/-- Dict deletion `del m[k]`: drop every binding of `k`. -/
def merase {β : Type} (k : String) : List (String × β) → List (String × β)
  | [] => []
  | (k', v') :: rest => if k' == k then merase k rest else (k', v') :: merase k rest

theorem mget_mset {β : Type} (k k' : String) (v : β) (m : List (String × β)) :
    mget k' (mset k v m) = if k = k' then some v else mget k' m := by
  induction m with
  | nil =>
    by_cases h : k = k' <;> simp [mget, mset, h]
  | cons hd tl ih =>
    obtain ⟨a, b⟩ := hd
    simp only [mset]
    by_cases h0 : a = k
    · by_cases h1 : k = k' <;> simp [mget, h0, h1]
    · have h0b : (a == k) = false := by simp [h0]
      simp only [h0b, Bool.false_eq_true, if_false, mget, ih]
      by_cases h1 : a = k'
      · have h2 : ¬ k = k' := fun h => h0 (h1.trans h.symm)
        simp [h1, h2]
      · simp [h1]

theorem mget_merase {β : Type} (k k' : String) (m : List (String × β)) :
    mget k' (merase k m) = if k = k' then none else mget k' m := by
  induction m with
  | nil => simp [merase, mget]
  | cons hd tl ih =>
    obtain ⟨a, b⟩ := hd
    simp only [merase]
    by_cases h0 : a = k
    · have h0b : (a == k) = true := by simp [h0]
      simp only [h0b, if_true, ih]
      by_cases h1 : k = k'
      · simp [h1]
      · have h2 : ¬ a = k' := fun h => h1 (h0.symm.trans h)
        simp [mget, h1, h2]
    · have h0b : (a == k) = false := by simp [h0]
      simp only [h0b, Bool.false_eq_true, if_false, mget, ih]
      by_cases h1 : a = k'
      · have h2 : ¬ k = k' := fun h => h0 (h1.trans h.symm)
        simp [h1, h2]
      · by_cases h2 : k = k' <;> simp [mget, h1, h2]

/-! ### Records (the dict shapes built by `request_planning`,
`add_tasks_to_request` and `create_subtasks`) -/

/-- A request record (`self.requests[request_id]`). -/
structure Request where
  id : String
  original_request : String
  split_details : Option String
  priority : String
  due_date : Option String
  created_at : ℚ
  status : String
  tasks : List String
  completed_at : Option ℚ := none
deriving DecidableEq

/-- A task record (`self.tasks[task_id]`). -/
structure Task where
  id : String
  request_id : String
  title : String
  description : String
  priority : String
  due_date : Option String
  created_at : ℚ
  status : String
  subtasks : List String
  completed_at : Option ℚ := none
  completed_details : Option String := none
  failed_at : Option ℚ := none
  failure_details : Option String := none
  approved : Bool := false
  approved_at : Option ℚ := none
  approval_role : Option String := none
  confidence_score : Option ℚ := none
deriving DecidableEq

/-- A subtask record (`self.subtasks[subtask_id]`). -/
structure Subtask where
  id : String
  task_id : String
  request_id : String
  title : String
  description : String
  priority : String
  due_date : Option String
  created_at : ℚ
  status : String
  completed_at : Option ℚ := none
  completed_details : Option String := none
  failed_at : Option ℚ := none
  failure_details : Option String := none
  approved : Bool := false
  approved_at : Option ℚ := none
  approval_role : Option String := none
  confidence_score : Option ℚ := none
deriving DecidableEq

/-- The whole in-memory state: the three top-level dicts of `TaskMasterTools`. -/
structure TMState where
  requests : List (String × Request)
  tasks : List (String × Task)
  subtasks : List (String × Subtask)
deriving DecidableEq

/-- `TaskMasterTools.__init__`: all three dicts start empty. -/
def initState : TMState := ⟨[], [], []⟩

/-- `self.auto_decision_threshold = 0.75`. -/
def auto_decision_threshold : ℚ := 3/4

/-! ### Priority sort key of `get_next_task` -/

/-- `priority_values.get(t["priority"], 0)` with
`priority_values = {HIGH: 3, MEDIUM: 2, LOW: 1}`. -/
def priority_values (p : String) : Int :=
  if p == Priority.HIGH then 3
  else if p == Priority.MEDIUM then 2
  else if p == Priority.LOW then 1
  else 0

/-- `t["due_date"] or "9999-12-31"`: Python `or` replaces both `None` and the
empty string by the sentinel. -/
def dueKey : Option String → String
  | none => "9999-12-31"
  | some d => if d == "" then "9999-12-31" else d

/-- The sort key is the Python tuple
`(-priority_values.get(...), due_date or sentinel)` under lexicographic
tuple comparison (string comparison is lexicographic on characters in both
Python and Lean). -/
abbrev SortKey := Int ×ₗ String

def taskKey (t : Task) : SortKey :=
  toLex (-(priority_values t.priority), dueKey t.due_date)

/-- Insert into a sorted list, before the first element whose key is not
smaller: combined with `sortByKey` this is a stable ascending sort, the
semantics of Python `list.sort(key=...)`. -/
def insertByKey (key : Task → SortKey) (x : Task) : List Task → List Task
  | [] => [x]
  | y :: ys => if key y < key x then y :: insertByKey key x ys else x :: y :: ys

/-- Stable insertion sort by key (model of `pending_tasks.sort(key=...)`). -/
def sortByKey (key : Task → SortKey) : List Task → List Task
  | [] => []
  | x :: xs => insertByKey key x (sortByKey key xs)

/-- The first element of the list attaining the minimal key; the head of a
stable ascending sort. -/
def firstArgmin (key : Task → SortKey) : List Task → Option Task
  | [] => none
  | x :: xs =>
    match firstArgmin key xs with
    | none => some x
    | some b => if key b < key x then some b else some x

theorem insertByKey_length (key : Task → SortKey) (x : Task) (l : List Task) :
    (insertByKey key x l).length = l.length + 1 := by
  induction l with
  | nil => rfl
  | cons y ys ih =>
    simp only [insertByKey]
    by_cases h : key y < key x <;> simp [h, ih]

theorem sortByKey_length (key : Task → SortKey) (l : List Task) :
    (sortByKey key l).length = l.length := by
  induction l with
  | nil => rfl
  | cons x xs ih => simp [sortByKey, insertByKey_length, ih]

theorem firstArgmin_eq_none (key : Task → SortKey) (l : List Task) :
    firstArgmin key l = none ↔ l = [] := by
  cases l with
  | nil => simp [firstArgmin]
  | cons x xs =>
    simp only [firstArgmin]
    constructor
    · intro h
      cases hfa : firstArgmin key xs with
      | none => rw [hfa] at h; simp at h
      | some b =>
        rw [hfa] at h
        by_cases hlt : key b < key x <;> simp [hlt] at h
    · intro h
      cases h

/-- The head of the stable sort is the first minimal-key element. -/
theorem sortByKey_head (key : Task → SortKey) (l : List Task) :
    (sortByKey key l).head? = firstArgmin key l := by
  induction l with
  | nil => rfl
  | cons x xs ih =>
    simp only [sortByKey, firstArgmin]
    cases hs : sortByKey key xs with
    | nil =>
      have hxs : xs = [] := by
        have hlen := sortByKey_length key xs
        rw [hs] at hlen
        exact List.length_eq_zero.mp hlen.symm
      subst hxs
      simp [sortByKey, insertByKey, firstArgmin]
    | cons b rest =>
      have hb : firstArgmin key xs = some b := by
        rw [← ih, hs]
        rfl
      rw [hb]
      simp only [insertByKey]
      by_cases hlt : key b < key x <;> simp [hlt]

theorem firstArgmin_mem (key : Task → SortKey) {l : List Task} {t : Task}
    (h : firstArgmin key l = some t) : t ∈ l := by
  induction l with
  | nil => simp [firstArgmin] at h
  | cons x xs ih =>
    simp only [firstArgmin] at h
    cases hfa : firstArgmin key xs with
    | none =>
      rw [hfa] at h
      simp only [Option.some.injEq] at h
      subst h
      exact List.mem_cons_self x xs
    | some b =>
      rw [hfa] at h
      by_cases hlt : key b < key x
      · simp only [hlt, if_true, Option.some.injEq] at h
        subst h
        exact List.mem_cons_of_mem x (ih hfa)
      · simp only [hlt, if_false, Option.some.injEq] at h
        subst h
        exact List.mem_cons_self x xs

/-- The selected element has a minimal key: no list element compares
strictly below it. -/
theorem firstArgmin_min (key : Task → SortKey) :
    ∀ {l : List Task} {t : Task},
      firstArgmin key l = some t → ∀ u ∈ l, ¬ key u < key t := by
  intro l
  induction l with
  | nil =>
    intro t h
    simp [firstArgmin] at h
  | cons x xs ih =>
    intro t h
    simp only [firstArgmin] at h
    cases hfa : firstArgmin key xs with
    | none =>
      have hxs : xs = [] := (firstArgmin_eq_none key xs).mp hfa
      subst hxs
      rw [hfa] at h
      simp only [Option.some.injEq] at h
      subst h
      intro u hu
      rcases List.mem_cons.mp hu with rfl | hu'
      · exact lt_irrefl _
      · cases hu'
    | some b =>
      rw [hfa] at h
      by_cases hlt : key b < key x
      · simp only [hlt, if_true, Option.some.injEq] at h
        subst h
        intro u hu
        rcases List.mem_cons.mp hu with rfl | hu'
        · exact lt_asymm hlt
        · exact ih hfa u hu'
      · simp only [hlt, if_false, Option.some.injEq] at h
        subst h
        intro u hu
        rcases List.mem_cons.mp hu with rfl | hu'
        · exact lt_irrefl _
        · intro hc
          exact ih hfa u hu' (lt_of_lt_of_le hc (not_lt.mp hlt))

/-- Stability: everything strictly before the selected element in the
original list has a strictly larger key. -/
theorem firstArgmin_first (key : Task → SortKey) {l : List Task} {t : Task}
    (h : firstArgmin key l = some t) :
    ∃ l₁ l₂, l = l₁ ++ t :: l₂ ∧ ∀ u ∈ l₁, key t < key u := by
  induction l with
  | nil => simp [firstArgmin] at h
  | cons x xs ih =>
    simp only [firstArgmin] at h
    cases hfa : firstArgmin key xs with
    | none =>
      rw [hfa] at h
      simp only [Option.some.injEq] at h
      subst h
      exact ⟨[], xs, rfl, by intro u hu; cases hu⟩
    | some b =>
      rw [hfa] at h
      by_cases hlt : key b < key x
      · simp only [hlt, if_true, Option.some.injEq] at h
        subst h
        obtain ⟨l₁, l₂, heq, hall⟩ := ih hfa
        refine ⟨x :: l₁, l₂, by rw [heq]; rfl, ?_⟩
        intro u hu
        rcases List.mem_cons.mp hu with rfl | hu'
        · exact hlt
        · exact hall u hu'
      · simp only [hlt, if_false, Option.some.injEq] at h
        subst h
        exact ⟨[], xs, rfl, by intro u hu; cases hu⟩

/-! ### `get_next_task` -/

/-- The dict produced by `_get_task_summary`. -/
structure TaskSummary where
  id : String
  title : String
  description : String
  status : String
  subtasks_count : Nat
  approved : Bool
deriving DecidableEq

/-- `_get_task_summary`, applied to the task record it looks up
(`self.tasks[task_id]`). -/
def _get_task_summary (t : Task) : TaskSummary :=
  { id := t.id
    title := t.title
    description := t.description
    status := t.status
    subtasks_count := t.subtasks.length
    approved := t.approved }

/-- The task records reached by `for task_id in request["tasks"]:
task = self.tasks[task_id]`.  The Python indexing raises `KeyError` on a
dangling id; `filterMap` skips it instead, which coincides with the source
whenever the referential-integrity invariant (claim C10) holds. -/
def requestTasks (s : TMState) (req : Request) : List Task :=
  req.tasks.filterMap (fun tid => mget tid s.tasks)

/-- The four possible `"status"` values returned by `get_next_task`
(`next_task` carries the returned task summary, `tasks_in_progress` the
reported count). -/
inductive GNTResult where
  | all_tasks_done
  | next_task (task : TaskSummary)
  | tasks_in_progress (count : Nat)
  | no_pending_tasks
deriving DecidableEq

/-- The `pending_tasks` list collected by `get_next_task`. -/
def pendingTasks (s : TMState) (req : Request) : List Task :=
  (requestTasks s req).filter (fun t => t.status == Status.PENDING)

/-- The `in_progress_tasks` list collected by `get_next_task`. -/
def inProgressTasks (s : TMState) (req : Request) : List Task :=
  (requestTasks s req).filter (fun t => t.status == Status.IN_PROGRESS)

/-- `get_next_task(request_id)`. -/
def get_next_task (s : TMState) (request_id : String) :
    Except String (GNTResult × TMState) :=
  match mget request_id s.requests with
  | none => .error ("Request ID " ++ request_id ++ " not found")
  | some req =>
    if (requestTasks s req).all (fun t => t.status == Status.COMPLETED) then
      .ok (.all_tasks_done, s)
    else
      match sortByKey taskKey (pendingTasks s req) with
      | next :: _ =>
        let nt : Task := { next with status := Status.IN_PROGRESS }
        .ok (.next_task (_get_task_summary nt),
             { s with tasks := mset next.id nt s.tasks })
      | [] =>
        if (inProgressTasks s req).length > 0 then
          .ok (.tasks_in_progress (inProgressTasks s req).length, s)
        else
          .ok (.no_pending_tasks, s)

/-! ### Claim C1: `get_next_task` selection -/

/-- **C1.** For every existing request with at least one PENDING task (hence
at least one non-COMPLETED task), `get_next_task` selects — among the
request's PENDING tasks only — the task minimizing the key
`(-priority rank, due date or maximal sentinel)` (`taskKey`, with HIGH=3,
MEDIUM=2, LOW=1, unrecognized=0 and missing due date mapped to the maximal
sentinel), breaking ties in favour of the earlier creation-order position;
the selected task is PENDING, its status transitions to IN_PROGRESS in the
new state, and its summary is returned. -/
theorem get_next_task_selects_min_pending (s : TMState) (rid : String)
    (req : Request) (hreq : mget rid s.requests = some req)
    (hpend : pendingTasks s req ≠ []) :
    ∃ t : Task,
      firstArgmin taskKey (pendingTasks s req) = some t ∧
      t ∈ pendingTasks s req ∧
      t.status = Status.PENDING ∧
      (∀ u ∈ pendingTasks s req, ¬ taskKey u < taskKey t) ∧
      (∃ l₁ l₂, pendingTasks s req = l₁ ++ t :: l₂ ∧
        ∀ u ∈ l₁, taskKey t < taskKey u) ∧
      get_next_task s rid =
        .ok (.next_task (_get_task_summary { t with status := Status.IN_PROGRESS }),
             { s with tasks := mset t.id { t with status := Status.IN_PROGRESS } s.tasks }) := by
  have hslen := sortByKey_length taskKey (pendingTasks s req)
  cases hs : sortByKey taskKey (pendingTasks s req) with
  | nil =>
    rw [hs] at hslen
    exact absurd (List.length_eq_zero.mp hslen.symm) hpend
  | cons next rest =>
    have hfa : firstArgmin taskKey (pendingTasks s req) = some next := by
      rw [← sortByKey_head, hs]
      rfl
    have hmem := firstArgmin_mem taskKey hfa
    have hmem' : next ∈ (requestTasks s req).filter
        (fun t => t.status == Status.PENDING) := by
      simpa [pendingTasks] using hmem
    obtain ⟨hmem2, hp⟩ := List.mem_filter.mp hmem'
    have hstat : next.status = Status.PENDING := by simpa using hp
    have hall : (requestTasks s req).all
        (fun t => t.status == Status.COMPLETED) = false := by
      cases hcall : (requestTasks s req).all
          (fun t => t.status == Status.COMPLETED) with
      | false => rfl
      | true =>
        have hc := List.all_eq_true.mp hcall next hmem2
        rw [hstat] at hc
        exact absurd hc (by decide)
    refine ⟨next, hfa, hmem, hstat, firstArgmin_min taskKey hfa,
      firstArgmin_first taskKey hfa, ?_⟩
    simp only [get_next_task, hreq, hall, Bool.false_eq_true, if_false, hs]

/-- Concrete data for the claim witnesses: a request with three PENDING
tasks of mixed priorities and due dates. -/
def wTaskA : Task :=
  { id := "t1", request_id := "r1", title := "a", description := "d1"
    priority := Priority.MEDIUM, due_date := none, created_at := 0
    status := Status.PENDING, subtasks := [] }

def wTaskB : Task :=
  { wTaskA with id := "t2", priority := Priority.HIGH
                due_date := some "2024-01-02" }

def wTaskC : Task :=
  { wTaskA with id := "t3", priority := Priority.HIGH
                due_date := some "2024-01-01" }

def wReq1 : Request :=
  { id := "r1", original_request := "o", split_details := none
    priority := Priority.MEDIUM, due_date := none, created_at := 0
    status := Status.PENDING, tasks := ["t1", "t2", "t3"] }

def wState1 : TMState :=
  { requests := [("r1", wReq1)]
    tasks := [("t1", wTaskA), ("t2", wTaskB), ("t3", wTaskC)]
    subtasks := [] }

/-- Witness for C1 at a concrete state. -/
theorem get_next_task_selects_min_pending_witness :
    ∃ t : Task,
      firstArgmin taskKey (pendingTasks wState1 wReq1) = some t ∧
      t ∈ pendingTasks wState1 wReq1 ∧
      t.status = Status.PENDING ∧
      (∀ u ∈ pendingTasks wState1 wReq1, ¬ taskKey u < taskKey t) ∧
      (∃ l₁ l₂, pendingTasks wState1 wReq1 = l₁ ++ t :: l₂ ∧
        ∀ u ∈ l₁, taskKey t < taskKey u) ∧
      get_next_task wState1 "r1" =
        .ok (.next_task (_get_task_summary { t with status := Status.IN_PROGRESS }),
             { wState1 with
                 tasks := mset t.id { t with status := Status.IN_PROGRESS } wState1.tasks }) :=
  get_next_task_selects_min_pending wState1 "r1" wReq1 (by decide) (by decide)

/-! ### Claim C9: the `all_tasks_done` branch -/

/-- **C9.** On an existing request, `get_next_task` reports `all_tasks_done`
iff every owned task is COMPLETED; a request whose tasks are all terminal
with at least one FAILED task instead reaches the `no_pending_tasks`
fallback. -/
theorem get_next_task_all_done_iff (s : TMState) (rid : String)
    (req : Request) (hreq : mget rid s.requests = some req) :
    (get_next_task s rid = .ok (.all_tasks_done, s) ↔
      (requestTasks s req).all (fun t => t.status == Status.COMPLETED) = true) ∧
    ((∀ t ∈ requestTasks s req,
        t.status = Status.COMPLETED ∨ t.status = Status.FAILED) →
      (∃ t ∈ requestTasks s req, t.status = Status.FAILED) →
      get_next_task s rid = .ok (.no_pending_tasks, s)) := by
  constructor
  · constructor
    · intro h
      by_cases hcall : (requestTasks s req).all
          (fun t => t.status == Status.COMPLETED) = true
      · exact hcall
      · exfalso
        have hcf : (requestTasks s req).all
            (fun t => t.status == Status.COMPLETED) = false := by
          revert hcall
          cases (requestTasks s req).all (fun t => t.status == Status.COMPLETED) <;>
            simp
        simp only [get_next_task, hreq, hcf, Bool.false_eq_true, if_false] at h
        cases hs : sortByKey taskKey (pendingTasks s req) with
        | cons next rest =>
          rw [hs] at h
          simp at h
        | nil =>
          rw [hs] at h
          by_cases hip : (inProgressTasks s req).length > 0 <;> simp [hip] at h
    · intro hcall
      simp [get_next_task, hreq, hcall]
  · intro hterm hfailed
    obtain ⟨tf, htf, hstf⟩ := hfailed
    have hcf : (requestTasks s req).all
        (fun t => t.status == Status.COMPLETED) = false := by
      cases hcall : (requestTasks s req).all
          (fun t => t.status == Status.COMPLETED) with
      | false => rfl
      | true =>
        have hc := List.all_eq_true.mp hcall tf htf
        rw [hstf] at hc
        exact absurd hc (by decide)
    have hpend : pendingTasks s req = [] := by
      simp only [pendingTasks]
      rw [List.filter_eq_nil_iff]
      intro t ht
      rcases hterm t ht with h | h <;> rw [h] <;> decide
    have hip : inProgressTasks s req = [] := by
      simp only [inProgressTasks]
      rw [List.filter_eq_nil_iff]
      intro t ht
      rcases hterm t ht with h | h <;> rw [h] <;> decide
    simp [get_next_task, hreq, hcf, hpend, hip, sortByKey]

/-! ### `approve_request_completion` (claim C4) -/

/-- The `# Check if all tasks are completed and approved` loop:
`task["status"] != COMPLETED or not task.get("approved", False)` clears the
flag.  `self.tasks[task_id]` raises `KeyError` on a dangling id; here it
yields `false`, which coincides with the source whenever claim C10's
invariant holds. -/
def allTasksCompletedApproved (s : TMState) (req : Request) : Bool :=
  req.tasks.all (fun tid =>
    match mget tid s.tasks with
    | some t => t.status == Status.COMPLETED && t.approved
    | none => false)

/-- `approve_request_completion(request_id)`.  The workflow metrics are
computed only to be logged to MLflow; they do not touch the three
mappings and are not modelled. -/
def approve_request_completion (s : TMState) (request_id : String) (now : ℚ) :
    Except String (String × TMState) :=
  match mget request_id s.requests with
  | none => .error ("Request ID " ++ request_id ++ " not found")
  | some req =>
    if allTasksCompletedApproved s req then
      .ok ("completed",
        { s with requests := mset request_id ({ req with status := Status.COMPLETED, completed_at := some now }) s.requests })
    else
      .ok ("incomplete", s)

/-- **C4.** On an existing request, `approve_request_completion` returns
`"incomplete"` and mutates nothing unless every owned task is COMPLETED and
approved; when all are, it marks the request COMPLETED with completion
timestamp `now`. -/
theorem approve_request_completion_spec (s : TMState) (rid : String)
    (now : ℚ) (req : Request) (hreq : mget rid s.requests = some req) :
    (allTasksCompletedApproved s req = true ↔
      ∀ tid ∈ req.tasks, ∃ t, mget tid s.tasks = some t ∧
        t.status = Status.COMPLETED ∧ t.approved = true) ∧
    (allTasksCompletedApproved s req = false →
      approve_request_completion s rid now = .ok ("incomplete", s)) ∧
    (allTasksCompletedApproved s req = true →
      approve_request_completion s rid now =
        .ok ("completed",
          { s with requests := mset rid ({ req with status := Status.COMPLETED, completed_at := some now }) s.requests })) := by
  refine ⟨?_, ?_, ?_⟩
  · constructor
    · intro hall tid htid
      have hb := List.all_eq_true.mp hall tid htid
      cases hm : mget tid s.tasks with
      | none => rw [hm] at hb; simp at hb
      | some t =>
        rw [hm] at hb
        simp only [Bool.and_eq_true, beq_iff_eq] at hb
        exact ⟨t, rfl, hb.1, hb.2⟩
    · intro hall
      apply List.all_eq_true.mpr
      intro tid htid
      obtain ⟨t, hm, hst, hap⟩ := hall tid htid
      rw [hm]
      simp [hst, hap]
  · intro hall
    simp [approve_request_completion, hreq, hall]
  · intro hall
    simp [approve_request_completion, hreq, hall]

/-- Concrete data for the C4 witness: one task COMPLETED but unapproved. -/
def wTaskH : Task :=
  { wTaskA with id := "t8", request_id := "r5", status := Status.COMPLETED }

def wReq5 : Request := { wReq1 with id := "r5", tasks := ["t8"] }

def wState5 : TMState :=
  { requests := [("r5", wReq5)], tasks := [("t8", wTaskH)], subtasks := [] }

/-- Witness for C4 at a concrete state. -/
theorem approve_request_completion_spec_witness :
    (allTasksCompletedApproved wState5 wReq5 = true ↔
      ∀ tid ∈ wReq5.tasks, ∃ t, mget tid wState5.tasks = some t ∧
        t.status = Status.COMPLETED ∧ t.approved = true) ∧
    (allTasksCompletedApproved wState5 wReq5 = false →
      approve_request_completion wState5 "r5" 40 = .ok ("incomplete", wState5)) ∧
    (allTasksCompletedApproved wState5 wReq5 = true →
      approve_request_completion wState5 "r5" 40 =
        .ok ("completed",
          { wState5 with requests := mset "r5" ({ wReq5 with status := Status.COMPLETED, completed_at := some 40 }) wState5.requests })) :=
  approve_request_completion_spec wState5 "r5" 40 wReq5 (by decide)

/-! ### `notify_task_event` (claim C5) -/

/-- `notify_task_event(request_id, task_id, event, subtask_id=None,
completed_details=None)`. -/
def notify_task_event (s : TMState) (request_id task_id : String)
    (event : String) (subtask_id : Option String)
    (completed_details : Option String) (now : ℚ) :
    Except String (String × TMState) :=
  match mget request_id s.requests with
  | none => .error ("Request ID " ++ request_id ++ " not found")
  | some _ =>
    match mget task_id s.tasks with
    | none => .error ("Task ID " ++ task_id ++ " not found")
    | some task =>
      if event == Event.COMPLETED || event == Event.FAILED then
        match subtask_id with
        | some sid =>
          match mget sid s.subtasks with
          | none => .error ("Subtask ID " ++ sid ++ " not found")
          | some subtask =>
            let subtask2 : Subtask :=
              if event == Event.COMPLETED then
                { subtask with status := Status.COMPLETED
                               completed_at := some now
                               completed_details := completed_details }
              else
                { subtask with status := Status.FAILED
                               failed_at := some now
                               failure_details := completed_details }
            .ok ("event_processed", { s with subtasks := mset sid subtask2 s.subtasks })
        | none =>
          let task2 : Task :=
            if event == Event.COMPLETED then
              { task with status := Status.COMPLETED
                          completed_at := some now
                          completed_details := completed_details }
            else
              { task with status := Status.FAILED
                          failed_at := some now
                          failure_details := completed_details }
          .ok ("event_processed", { s with tasks := mset task_id task2 s.tasks })
      else
        .error ("Invalid event: " ++ event)

/-- **C5.** On an existing request and task, `notify_task_event` raises a
validation failure iff the event is neither COMPLETED nor FAILED; a valid
event unconditionally overwrites the target's status (no prior-state
guard), recording `completed_at`/`completed_details` for COMPLETED and
`failed_at`/`failure_details` for FAILED. -/
theorem notify_task_event_spec (s : TMState) (rid tid ev : String)
    (details : Option String) (now : ℚ) (task : Task)
    (hreq : (mget rid s.requests).isSome = true)
    (htask : mget tid s.tasks = some task) :
    ((ev ≠ Event.COMPLETED ∧ ev ≠ Event.FAILED) →
      ∀ sid, ∃ msg, notify_task_event s rid tid ev sid details now = .error msg) ∧
    (ev = Event.COMPLETED →
      notify_task_event s rid tid ev none details now =
        .ok ("event_processed",
          { s with tasks := mset tid ({ task with status := Status.COMPLETED, completed_at := some now, completed_details := details }) s.tasks })) ∧ (ev = Event.FAILED →
      notify_task_event s rid tid ev none details now =
        .ok ("event_processed",
          { s with tasks := mset tid ({ task with status := Status.FAILED, failed_at := some now, failure_details := details }) s.tasks })) ∧ (∀ sid subtask, mget sid s.subtasks = some subtask →
      (ev = Event.COMPLETED →
        notify_task_event s rid tid ev (some sid) details now =
          .ok ("event_processed",
            { s with subtasks := mset sid ({ subtask with status := Status.COMPLETED, completed_at := some now, completed_details := details }) s.subtasks })) ∧ (ev = Event.FAILED →
        notify_task_event s rid tid ev (some sid) details now =
          .ok ("event_processed",
            { s with subtasks := mset sid ({ subtask with status := Status.FAILED, failed_at := some now, failure_details := details }) s.subtasks }))) := by
  obtain ⟨req, hreq'⟩ := Option.isSome_iff_exists.mp hreq
  refine ⟨?_, ?_, ?_, ?_⟩
  · intro ⟨h1, h2⟩ sid
    have hb1 : (ev == Event.COMPLETED) = false := by simpa using h1
    have hb2 : (ev == Event.FAILED) = false := by simpa using h2
    exact ⟨"Invalid event: " ++ ev, by
      simp [notify_task_event, hreq', htask, hb1, hb2]⟩
  · intro h
    have hb : (ev == Event.COMPLETED) = true := by simpa using h
    simp [notify_task_event, hreq', htask, hb]
  · intro h
    have hb1 : (ev == Event.COMPLETED) = false := by
      rw [h]
      decide
    have hb2 : (ev == Event.FAILED) = true := by simpa using h
    simp [notify_task_event, hreq', htask, hb1, hb2]
  · intro sid subtask hsub
    constructor
    · intro h
      have hb : (ev == Event.COMPLETED) = true := by simpa using h
      simp [notify_task_event, hreq', htask, hsub, hb]
    · intro h
      have hb1 : (ev == Event.COMPLETED) = false := by
        rw [h]
        decide
      have hb2 : (ev == Event.FAILED) = true := by simpa using h
      simp [notify_task_event, hreq', htask, hsub, hb1, hb2]

/-- Concrete data for the C9 witness: one COMPLETED and one FAILED task. -/
def wTaskD : Task := { wTaskA with id := "t4", status := Status.COMPLETED }

def wTaskE : Task := { wTaskA with id := "t5", status := Status.FAILED }

def wReq2 : Request := { wReq1 with id := "r2", tasks := ["t4", "t5"] }

def wState2 : TMState :=
  { requests := [("r2", wReq2)]
    tasks := [("t4", wTaskD), ("t5", wTaskE)]
    subtasks := [] }

/-! ### Confidence scoring and `approve_task_completion` -/

/-- `_calculate_execution_time(task_obj)`: `completed_at - created_at` in
seconds; `0.0` when the object has no `completed_at` key.  (`created_at` is
always present on the records the tracker builds, and model timestamps are
always parseable, so the `except` branch returning `0.0` is unreachable.) -/
def _calculate_execution_time (created_at : ℚ) (completed_at : Option ℚ) : ℚ :=
  match completed_at with
  | none => 0
  | some endTime => endTime - created_at

/-! The Python code computes the confidence score in IEEE-754 double
precision.  A double is represented here by its exact rational value; a
decimal literal becomes `roundDouble` of its exact value, and each float
addition rounds its exact rational sum back to 53-bit precision
(`fladd`, round-to-nearest with ties to even).  Comparisons, `max` and
`min` on doubles are exact, so they stay plain rational comparisons.  The
literals `0.75`, `30`, `300`, `0.0` and `1.0` are exactly representable;
`0.7`, `±0.1` and `±0.05` are not, which makes e.g.
`0.7 + 0.1 - 0.05 = 0.7499999999999999 < 0.75` in the program.
`execution_time` itself keeps the idealized rational timestamps (see the
header). -/

/-- `⌊log₂ q⌋` for `q > 0` by repeated doubling/halving; the fuel covers
`2^±1100`, beyond the double range. -/
def log2floorAux : ℕ → ℚ → ℤ → ℤ
  | 0, _, e => e
  | fuel+1, q, e =>
    if q < 1 then log2floorAux fuel (2 * q) (e - 1)
    else if q < 2 then e
    else log2floorAux fuel (q / 2) (e + 1)

def log2floor (q : ℚ) : ℤ := log2floorAux 1100 q 0

/-- Round to the nearest integer, ties to even. -/
def roundNearestEven (x : ℚ) : ℤ :=
  if x - ⌊x⌋ < 1/2 then ⌊x⌋
  else if 1/2 < x - ⌊x⌋ then ⌊x⌋ + 1
  else if ⌊x⌋ % 2 = 0 then ⌊x⌋ else ⌊x⌋ + 1

/-- Round a positive rational to the nearest IEEE-754 double (normal
range): keep 53 significant bits, ties to even. -/
def roundDoublePos (q : ℚ) : ℚ :=
  ((roundNearestEven (q * 2 ^ ((52 : ℤ) - log2floor q)) : ℚ)) /
    2 ^ ((52 : ℤ) - log2floor q)

/-- Round a rational to the nearest IEEE-754 double (rounding is
sign-symmetric). -/
def roundDouble (q : ℚ) : ℚ :=
  if q < 0 then -(roundDoublePos (-q)) else roundDoublePos q

/-- IEEE-754 double addition: the exact sum, rounded. -/
def fladd (x y : ℚ) : ℚ := roundDouble (x + y)

theorem log2floorAux_lt1 {fuel : ℕ} {q : ℚ} {e : ℤ} (h : q < 1) :
    log2floorAux (fuel+1) q e = log2floorAux fuel (2*q) (e-1) := by
  simp only [log2floorAux, if_pos h]

theorem log2floorAux_mid {fuel : ℕ} {q : ℚ} {e : ℤ} (h1 : ¬ q < 1) (h2 : q < 2) :
    log2floorAux (fuel+1) q e = e := by
  simp only [log2floorAux, if_neg h1, if_pos h2]

theorem roundNearestEven_of_lt {x : ℚ} {n : ℤ} (hfl : ⌊x⌋ = n) (h : x - n < 1/2) :
    roundNearestEven x = n := by
  unfold roundNearestEven
  rw [hfl, if_pos h]

theorem roundNearestEven_of_gt {x : ℚ} {n : ℤ} (hfl : ⌊x⌋ = n) (h : 1/2 < x - n) :
    roundNearestEven x = n + 1 := by
  unfold roundNearestEven
  rw [hfl, if_neg (lt_asymm h), if_pos h]

theorem roundDoublePos_eval_dn {q S : ℚ} {k n : ℤ}
    (hlog : log2floor q = k) (hS : ((2:ℚ) ^ ((52 : ℤ) - k)) = S)
    (hfl : ⌊q * S⌋ = n) (hlt : q * S - n < 1/2) :
    roundDoublePos q = n / S := by
  unfold roundDoublePos
  rw [hlog, hS, roundNearestEven_of_lt hfl hlt]

theorem roundDoublePos_eval_up {q S : ℚ} {k n : ℤ}
    (hlog : log2floor q = k) (hS : ((2:ℚ) ^ ((52 : ℤ) - k)) = S)
    (hfl : ⌊q * S⌋ = n) (hgt : 1/2 < q * S - n) :
    roundDoublePos q = (n + 1 : ℤ) / S := by
  unfold roundDoublePos
  rw [hlog, hS, roundNearestEven_of_gt hfl hgt]

/-! Concrete double values used by the confidence computation on the
fast-and-short path (all cross-checked against the exact IEEE-754
doubles). -/

theorem log2floor_seven_tenths : log2floor (7/10 : ℚ) = -1 := by
  unfold log2floor
  rw [log2floorAux_lt1 (by norm_num), log2floorAux_mid (by norm_num) (by norm_num)]
  norm_num

theorem log2floor_one_tenth : log2floor (1/10 : ℚ) = -4 := by
  unfold log2floor
  rw [log2floorAux_lt1 (by norm_num), log2floorAux_lt1 (by norm_num),
    log2floorAux_lt1 (by norm_num), log2floorAux_lt1 (by norm_num),
    log2floorAux_mid (by norm_num) (by norm_num)]
  norm_num

theorem log2floor_one_twentieth : log2floor (1/20 : ℚ) = -5 := by
  unfold log2floor
  rw [log2floorAux_lt1 (by norm_num), log2floorAux_lt1 (by norm_num),
    log2floorAux_lt1 (by norm_num), log2floorAux_lt1 (by norm_num),
    log2floorAux_lt1 (by norm_num), log2floorAux_mid (by norm_num) (by norm_num)]
  norm_num

theorem log2floor_sumA :
    log2floor (28823037615171173/36028797018963968 : ℚ) = -1 := by
  unfold log2floor
  rw [log2floorAux_lt1 (by norm_num), log2floorAux_mid (by norm_num) (by norm_num)]
  norm_num

theorem log2floor_sumB :
    log2floor (54043195528445947/72057594037927936 : ℚ) = -1 := by
  unfold log2floor
  rw [log2floorAux_lt1 (by norm_num), log2floorAux_mid (by norm_num) (by norm_num)]
  norm_num

theorem log2floor_sumC :
    log2floor (6755399441055743/9007199254740992 : ℚ) = -1 := by
  unfold log2floor
  rw [log2floorAux_lt1 (by norm_num), log2floorAux_mid (by norm_num) (by norm_num)]
  norm_num

/-- `fl(0.7) = 0.69999999999999995…`. -/
theorem roundDouble_seven_tenths :
    roundDouble (7/10 : ℚ) = 3152519739159347/4503599627370496 := by
  have hS : ((2:ℚ) ^ ((52 : ℤ) - (-1))) = 9007199254740992 := by norm_num
  have hfl : ⌊(7/10 : ℚ) * 9007199254740992⌋ = 6305039478318694 := by
    rw [Int.floor_eq_iff]
    constructor <;> push_cast <;> norm_num
  have hlt : (7/10 : ℚ) * 9007199254740992 - ((6305039478318694 : ℤ) : ℚ) < 1/2 := by
    push_cast
    norm_num
  unfold roundDouble
  rw [if_neg (by norm_num)]
  rw [roundDoublePos_eval_dn log2floor_seven_tenths hS hfl hlt]
  push_cast
  norm_num

/-- `fl(0.1) = 0.10000000000000000555…`. -/
theorem roundDouble_one_tenth :
    roundDouble (1/10 : ℚ) = 3602879701896397/36028797018963968 := by
  have hS : ((2:ℚ) ^ ((52 : ℤ) - (-4))) = 72057594037927936 := by norm_num
  have hfl : ⌊(1/10 : ℚ) * 72057594037927936⌋ = 7205759403792793 := by
    rw [Int.floor_eq_iff]
    constructor <;> push_cast <;> norm_num
  have hgt : (1/2 : ℚ) < (1/10 : ℚ) * 72057594037927936 - ((7205759403792793 : ℤ) : ℚ) := by
    push_cast
    norm_num
  unfold roundDouble
  rw [if_neg (by norm_num)]
  rw [roundDoublePos_eval_up log2floor_one_tenth hS hfl hgt]
  push_cast
  norm_num

/-- `fl(0.05) = 0.05000000000000000277…` (positive part). -/
theorem roundDoublePos_one_twentieth :
    roundDoublePos (1/20 : ℚ) = 3602879701896397/72057594037927936 := by
  have hS : ((2:ℚ) ^ ((52 : ℤ) - (-5))) = 144115188075855872 := by norm_num
  have hfl : ⌊(1/20 : ℚ) * 144115188075855872⌋ = 7205759403792793 := by
    rw [Int.floor_eq_iff]
    constructor <;> push_cast <;> norm_num
  have hgt : (1/2 : ℚ) < (1/20 : ℚ) * 144115188075855872 - ((7205759403792793 : ℤ) : ℚ) := by
    push_cast
    norm_num
  rw [roundDoublePos_eval_up log2floor_one_twentieth hS hfl hgt]
  push_cast
  norm_num

/-- `fl(-0.05) = -fl(0.05)`. -/
theorem roundDouble_neg_one_twentieth :
    roundDouble (-(1/20) : ℚ) = -(3602879701896397/72057594037927936) := by
  unfold roundDouble
  rw [if_pos (by norm_num : (-(1/20) : ℚ) < 0)]
  rw [show (-(-(1/20) : ℚ)) = 1/20 from by norm_num]
  rw [roundDoublePos_one_twentieth]

/-- `fl(0.7) ⊕ fl(0.1) = 0.7999999999999999` (the rounded sum). -/
theorem fladd_seven_tenths_one_tenth :
    fladd (3152519739159347/4503599627370496 : ℚ) (3602879701896397/36028797018963968) =
      7205759403792793/9007199254740992 := by
  unfold fladd
  rw [show (3152519739159347/4503599627370496 : ℚ) + 3602879701896397/36028797018963968 =
      28823037615171173/36028797018963968 from by norm_num]
  have hS : ((2:ℚ) ^ ((52 : ℤ) - (-1))) = 9007199254740992 := by norm_num
  have hfl : ⌊(28823037615171173/36028797018963968 : ℚ) * 9007199254740992⌋ =
      7205759403792793 := by
    rw [Int.floor_eq_iff]
    constructor <;> push_cast <;> norm_num
  have hlt : (28823037615171173/36028797018963968 : ℚ) * 9007199254740992 -
      ((7205759403792793 : ℤ) : ℚ) < 1/2 := by
    push_cast
    norm_num
  unfold roundDouble
  rw [if_neg (by norm_num)]
  rw [roundDoublePos_eval_dn log2floor_sumA hS hfl hlt]
  push_cast
  norm_num

/-- `0.7999999999999999 ⊖ fl(0.05) = 0.7499999999999999`, the double just
below `0.75`. -/
theorem fladd_sumA_neg_one_twentieth :
    fladd (7205759403792793/9007199254740992 : ℚ) (-(3602879701896397/72057594037927936)) =
      6755399441055743/9007199254740992 := by
  unfold fladd
  rw [show (7205759403792793/9007199254740992 : ℚ) + -(3602879701896397/72057594037927936) =
      54043195528445947/72057594037927936 from by norm_num]
  have hS : ((2:ℚ) ^ ((52 : ℤ) - (-1))) = 9007199254740992 := by norm_num
  have hfl : ⌊(54043195528445947/72057594037927936 : ℚ) * 9007199254740992⌋ =
      6755399441055743 := by
    rw [Int.floor_eq_iff]
    constructor <;> push_cast <;> norm_num
  have hlt : (54043195528445947/72057594037927936 : ℚ) * 9007199254740992 -
      ((6755399441055743 : ℤ) : ℚ) < 1/2 := by
    push_cast
    norm_num
  unfold roundDouble
  rw [if_neg (by norm_num)]
  rw [roundDoublePos_eval_dn log2floor_sumB hS hfl hlt]
  push_cast
  norm_num

/-- Adding the zero history factor changes nothing (the value is already a
double). -/
theorem fladd_sumB_zero :
    fladd (6755399441055743/9007199254740992 : ℚ) 0 =
      6755399441055743/9007199254740992 := by
  unfold fladd
  rw [add_zero]
  have hS : ((2:ℚ) ^ ((52 : ℤ) - (-1))) = 9007199254740992 := by norm_num
  have hfl : ⌊(6755399441055743/9007199254740992 : ℚ) * 9007199254740992⌋ =
      6755399441055743 := by
    rw [Int.floor_eq_iff]
    constructor <;> push_cast <;> norm_num
  have hlt : (6755399441055743/9007199254740992 : ℚ) * 9007199254740992 -
      ((6755399441055743 : ℤ) : ℚ) < 1/2 := by
    push_cast
    norm_num
  unfold roundDouble
  rw [if_neg (by norm_num)]
  rw [roundDoublePos_eval_dn log2floor_sumC hS hfl hlt]
  push_cast
  norm_num

/-- `_calculate_approval_confidence(task_obj)` in the program's
double-precision arithmetic: the non-representable literals are rounded
and the sum `base + time + complexity + history` associates to the left,
rounding after each addition, before the exact clamp
`max(0.0, min(1.0, confidence))`. -/
def _calculate_approval_confidence (created_at : ℚ) (completed_at : Option ℚ)
    (description : String) : ℚ :=
  let base_confidence : ℚ := roundDouble (7/10)
  let execution_time := _calculate_execution_time created_at completed_at
  let time_factor : ℚ :=
    if execution_time < 30 then roundDouble (1/10)
    else if execution_time > 300 then roundDouble (-(1/10))
    else 0
  let description_len := description.length
  let complexity_factor : ℚ :=
    if description_len < 50 then roundDouble (-(1/20))
    else if description_len > 1000 then roundDouble (-(1/10))
    else roundDouble (1/20)
  let history_factor : ℚ := 0
  let confidence :=
    fladd (fladd (fladd base_confidence time_factor) complexity_factor) history_factor
  max 0 (min 1 confidence)

/-- `self._calculate_approval_confidence(task)` on a task record. -/
def taskConfidence (t : Task) : ℚ :=
  _calculate_approval_confidence t.created_at t.completed_at t.description

/-- `self._calculate_approval_confidence(subtask)` on a subtask record. -/
def subtaskConfidence (st : Subtask) : ℚ :=
  _calculate_approval_confidence st.created_at st.completed_at st.description

/-- `ApprovalRole.AUTO.value if confidence_score >= self.auto_decision_threshold
else ApprovalRole.AGENT.value`. -/
def approvalRoleFor (confidence_score : ℚ) : String :=
  if confidence_score ≥ auto_decision_threshold then ApprovalRole.AUTO
  else ApprovalRole.AGENT

/-- The `# Record approval` block on a subtask. -/
def approvedSubtaskRecord (st : Subtask) (now : ℚ) : Subtask :=
  { st with approved := true, approved_at := some now
            approval_role := some (approvalRoleFor (subtaskConfidence st))
            confidence_score := some (subtaskConfidence st) }

/-- The `# Record approval` block on a task. -/
def approvedTaskRecord (t : Task) (now : ℚ) : Task :=
  { t with approved := true, approved_at := some now
           approval_role := some (approvalRoleFor (taskConfidence t))
           confidence_score := some (taskConfidence t) }

/-- The `# Check if all subtasks are approved for this task` loop:
`st.get("approved", False)` for every listed subtask id.  The Python
indexing `self.subtasks[stid]` raises `KeyError` on a dangling id; here a
dangling id yields `false`, which coincides with the source whenever the
referential-integrity invariant (claim C10) holds. -/
def allSubtasksApproved (s : TMState) (task : Task) : Bool :=
  task.subtasks.all (fun stid =>
    match mget stid s.subtasks with
    | some st => st.approved
    | none => false)

/-- `approve_task_completion(request_id, task_id, subtask_id=None)`. -/
def approve_task_completion (s : TMState) (request_id task_id : String)
    (subtask_id : Option String) (now : ℚ) : Except String (String × TMState) :=
  match mget request_id s.requests with
  | none => .error ("Request ID " ++ request_id ++ " not found")
  | some _ =>
    match mget task_id s.tasks with
    | none => .error ("Task ID " ++ task_id ++ " not found")
    | some task =>
      match subtask_id with
      | some sid =>
        match mget sid s.subtasks with
        | none => .error ("Subtask ID " ++ sid ++ " not found")
        | some subtask =>
          if subtask.status == Status.COMPLETED then
            let s1 : TMState :=
              { s with subtasks := mset sid (approvedSubtaskRecord subtask now) s.subtasks }
            if allSubtasksApproved s1 task && !task.subtasks.isEmpty then
              let task2 : Task :=
                { task with status := Status.COMPLETED, completed_at := some now }
              .ok ("approved", { s1 with tasks := mset task_id task2 s1.tasks })
            else
              .ok ("approved", s1)
          else
            .ok ("not_completed", s)
      | none =>
        if task.status == Status.COMPLETED then
          .ok ("approved",
            { s with tasks := mset task_id (approvedTaskRecord task now) s.tasks })
        else
          .ok ("not_completed", s)

/-! ### Claim C2: approval guard, recorded fields, confidence bounds -/

/-- **C2 (amended).** On an existing request and task,
`approve_task_completion` on a target (task, or subtask when a subtask id
is given) that is not COMPLETED returns `"not_completed"` and leaves the
state unchanged; on a COMPLETED target it records `approved = true`, the
approval timestamp, the confidence score computed by
`_calculate_approval_confidence` (base 0.70, +0.10 for execution time
< 30s, −0.10 for > 300s, −0.05 for description length < 50, −0.10 for
length > 1000, +0.05 otherwise, clamped to [0,1], *evaluated in IEEE-754
double-precision arithmetic*), and the role AUTO iff that recorded score
is ≥ 0.75 (else AGENT); the clamped score always lies in [0, 1].  The
claim's exact-real reading of the score is refuted by
`approve_role_float_counterexample`: on the fast-and-short path the
double-precision sum falls just below 0.75 and the role is AGENT. -/
theorem approve_task_completion_spec (s : TMState) (rid tid : String)
    (now : ℚ) (task : Task) (hreq : (mget rid s.requests).isSome = true)
    (htask : mget tid s.tasks = some task) :
    ((task.status ≠ Status.COMPLETED →
        approve_task_completion s rid tid none now = .ok ("not_completed", s)) ∧
     (task.status = Status.COMPLETED →
        approve_task_completion s rid tid none now =
          .ok ("approved",
            { s with tasks := mset tid (approvedTaskRecord task now) s.tasks }))) ∧
    (∀ sid subtask, mget sid s.subtasks = some subtask →
      (subtask.status ≠ Status.COMPLETED →
        approve_task_completion s rid tid (some sid) now = .ok ("not_completed", s)) ∧
      (subtask.status = Status.COMPLETED →
        ∃ s2 : TMState,
          approve_task_completion s rid tid (some sid) now = .ok ("approved", s2) ∧
          mget sid s2.subtasks = some (approvedSubtaskRecord subtask now) ∧
          (approvedSubtaskRecord subtask now).approved = true ∧
          (approvedSubtaskRecord subtask now).approved_at = some now ∧
          (approvedSubtaskRecord subtask now).confidence_score =
            some (subtaskConfidence subtask) ∧
          (approvedSubtaskRecord subtask now).approval_role =
            some (approvalRoleFor (subtaskConfidence subtask)))) ∧
    (∀ (c : ℚ) (co : Option ℚ) (d : String),
      0 ≤ _calculate_approval_confidence c co d ∧
        _calculate_approval_confidence c co d ≤ 1) := by
  obtain ⟨req, hreq'⟩ := Option.isSome_iff_exists.mp hreq
  have hbounds : ∀ (c : ℚ) (co : Option ℚ) (d : String),
      0 ≤ _calculate_approval_confidence c co d ∧
        _calculate_approval_confidence c co d ≤ 1 := by
    intro c co d
    constructor
    · exact le_max_left 0 _
    · apply max_le
      · norm_num
      · exact min_le_left 1 _
  refine ⟨⟨?_, ?_⟩, ?_, hbounds⟩
  · intro hne
    have hb : (task.status == Status.COMPLETED) = false := by
      simpa using hne
    simp [approve_task_completion, hreq', htask, hb]
  · intro heq
    have hb : (task.status == Status.COMPLETED) = true := by
      simpa using heq
    simp [approve_task_completion, hreq', htask, hb]
  · intro sid subtask hsub
    constructor
    · intro hne
      have hb : (subtask.status == Status.COMPLETED) = false := by
        simpa using hne
      simp [approve_task_completion, hreq', htask, hsub, hb]
    · intro heq
      have hb : (subtask.status == Status.COMPLETED) = true := by
        simpa using heq
      by_cases hall : (allSubtasksApproved
          { s with subtasks := mset sid (approvedSubtaskRecord subtask now) s.subtasks }
          task && !task.subtasks.isEmpty) = true
      · refine ⟨⟨s.requests,
          mset tid { task with status := Status.COMPLETED, completed_at := some now } s.tasks,
          mset sid (approvedSubtaskRecord subtask now) s.subtasks⟩, ?_, ?_, rfl, rfl, rfl, rfl⟩
        · simp [approve_task_completion, hreq', htask, hsub, hb, hall]
        · simp [mget_mset]
      · have hallf : (allSubtasksApproved
            { s with subtasks := mset sid (approvedSubtaskRecord subtask now) s.subtasks }
            task && !task.subtasks.isEmpty) = false := by
          revert hall
          cases (allSubtasksApproved
            { s with subtasks := mset sid (approvedSubtaskRecord subtask now) s.subtasks }
            task && !task.subtasks.isEmpty) <;> simp
        refine ⟨⟨s.requests, s.tasks,
          mset sid (approvedSubtaskRecord subtask now) s.subtasks⟩, ?_, ?_, rfl, rfl, rfl, rfl⟩
        · simp [approve_task_completion, hreq', htask, hsub, hb, hallf]
        · simp [mget_mset]

/-- Concrete data for the C2 witness: a COMPLETED task and a COMPLETED
subtask. -/
def wTaskF : Task :=
  { wTaskA with id := "t6", status := Status.COMPLETED
                completed_at := some 10, subtasks := ["st1"] }

def wSubA : Subtask :=
  { id := "st1", task_id := "t6", request_id := "r3", title := "s"
    description := "sd", priority := Priority.MEDIUM, due_date := none
    created_at := 0, status := Status.COMPLETED, completed_at := some 5 }

def wReq3 : Request := { wReq1 with id := "r3", tasks := ["t6"] }

def wState3 : TMState :=
  { requests := [("r3", wReq3)]
    tasks := [("t6", wTaskF)]
    subtasks := [("st1", wSubA)] }

/-- On the fast-and-short path (execution time below 30 s, description
under 50 characters) the program's double-precision confidence is the
double just below 0.75 — not 0.75. -/
theorem conf_fast_short :
    _calculate_approval_confidence 0 (some 5) "sd" =
      6755399441055743/9007199254740992 := by
  simp only [_calculate_approval_confidence, _calculate_execution_time,
    show ("sd" : String).length = 2 from rfl]
  rw [if_pos (show ((5:ℚ) - 0) < 30 from by norm_num)]
  rw [if_pos (show (2:ℕ) < 50 from by norm_num)]
  rw [roundDouble_seven_tenths, roundDouble_one_tenth, roundDouble_neg_one_twentieth]
  rw [fladd_seven_tenths_one_tenth, fladd_sumA_neg_one_twentieth, fladd_sumB_zero]
  rw [min_eq_right (by norm_num), max_eq_right (by norm_num)]

/-- The confidence formula read in exact real arithmetic, as claim C2
states it: base 0.70, ±time and ±complexity adjustments, clamped to
[0, 1].  This is the claim-side contrast definition; the program computes
the same formula in doubles (`_calculate_approval_confidence`). -/
def idealConfidence (execution_time : ℚ) (description_len : ℕ) : ℚ :=
  let base : ℚ := 7/10
  let time_factor : ℚ :=
    if execution_time < 30 then 1/10
    else if execution_time > 300 then -(1/10)
    else 0
  let complexity_factor : ℚ :=
    if description_len < 50 then -(1/20)
    else if description_len > 1000 then -(1/10)
    else 1/20
  max 0 (min 1 (base + time_factor + complexity_factor))

/-- **C2 counterexample.** For the COMPLETED subtask `st1` (execution time
5 s < 30, description length 2 < 50) the claim's exact-arithmetic score
is `0.70 + 0.10 − 0.05 = 0.75`, which meets the ≥ 0.75 threshold, so the
claim asserts role AUTO — but the program, computing in doubles, records
role AGENT (its score is `0.7499999999999999 < 0.75`). -/
theorem approve_role_float_counterexample :
    idealConfidence (_calculate_execution_time wSubA.created_at wSubA.completed_at)
      wSubA.description.length = 3/4 ∧
    auto_decision_threshold ≤ 3/4 ∧
    (approve_task_completion wState3 "r3" "t6" (some "st1") 20).map
        (fun p => (mget "st1" p.2.subtasks).map Subtask.approval_role) =
      .ok (some (some ApprovalRole.AGENT)) ∧
    ApprovalRole.AGENT ≠ ApprovalRole.AUTO := by
  refine ⟨?_, by norm_num [auto_decision_threshold], ?_, by decide⟩
  · show idealConfidence ((5:ℚ) - 0) (("sd" : String).length) = 3/4
    simp only [idealConfidence, show ("sd" : String).length = 2 from rfl]
    rw [if_pos (show ((5:ℚ) - 0) < 30 from by norm_num)]
    rw [if_pos (show (2:ℕ) < 50 from by norm_num)]
    rw [show ((7/10 : ℚ) + 1/10 + -(1/20)) = 3/4 from by norm_num]
    rw [min_eq_right (by norm_num), max_eq_right (by norm_num)]
  · have hconf : subtaskConfidence wSubA = 6755399441055743/9007199254740992 := by
      show _calculate_approval_confidence 0 (some 5) "sd" = _
      exact conf_fast_short
    have hrole : approvalRoleFor (subtaskConfidence wSubA) = ApprovalRole.AGENT := by
      rw [hconf]
      unfold approvalRoleFor
      rw [if_neg (by norm_num [auto_decision_threshold])]
    have hr1 : mget "r3" wState3.requests = some wReq3 := by decide
    have hr2 : mget "t6" wState3.tasks = some wTaskF := by decide
    have hr3 : mget "st1" wState3.subtasks = some wSubA := by decide
    have hb : (wSubA.status == Status.COMPLETED) = true := by decide
    have hall : (allSubtasksApproved
        { wState3 with subtasks := mset "st1" (approvedSubtaskRecord wSubA 20) wState3.subtasks }
        wTaskF && !wTaskF.subtasks.isEmpty) = true := by decide
    have hstep : approve_task_completion wState3 "r3" "t6" (some "st1") 20 =
        .ok ("approved",
          { wState3 with
              subtasks := mset "st1" (approvedSubtaskRecord wSubA 20) wState3.subtasks
              tasks := mset "t6" ({ wTaskF with status := Status.COMPLETED, completed_at := some 20 }) wState3.tasks }) := by
      simp [approve_task_completion, hr1, hr2, hr3, hb, hall]
    rw [hstep]
    have hget : mget "st1" (mset "st1" (approvedSubtaskRecord wSubA 20) wState3.subtasks) =
        some (approvedSubtaskRecord wSubA 20) := by
      rw [mget_mset, if_pos rfl]
    show Except.ok ((mget "st1" (mset "st1" (approvedSubtaskRecord wSubA 20) wState3.subtasks)).map
        Subtask.approval_role) = Except.ok (some (some ApprovalRole.AGENT))
    rw [hget]
    show Except.ok (ε := String) (some (approvedSubtaskRecord wSubA 20).approval_role) =
      Except.ok (some (some ApprovalRole.AGENT))
    rw [show (approvedSubtaskRecord wSubA 20).approval_role =
      some (approvalRoleFor (subtaskConfidence wSubA)) from rfl]
    rw [hrole]

/-- Witness for C2 at a concrete state. -/
theorem approve_task_completion_spec_witness :
    ((wTaskF.status ≠ Status.COMPLETED →
        approve_task_completion wState3 "r3" "t6" none 20 = .ok ("not_completed", wState3)) ∧
     (wTaskF.status = Status.COMPLETED →
        approve_task_completion wState3 "r3" "t6" none 20 =
          .ok ("approved",
            { wState3 with tasks := mset "t6" (approvedTaskRecord wTaskF 20) wState3.tasks }))) ∧
    (∀ sid subtask, mget sid wState3.subtasks = some subtask →
      (subtask.status ≠ Status.COMPLETED →
        approve_task_completion wState3 "r3" "t6" (some sid) 20 = .ok ("not_completed", wState3)) ∧
      (subtask.status = Status.COMPLETED →
        ∃ s2 : TMState,
          approve_task_completion wState3 "r3" "t6" (some sid) 20 = .ok ("approved", s2) ∧
          mget sid s2.subtasks = some (approvedSubtaskRecord subtask 20) ∧
          (approvedSubtaskRecord subtask 20).approved = true ∧
          (approvedSubtaskRecord subtask 20).approved_at = some 20 ∧
          (approvedSubtaskRecord subtask 20).confidence_score =
            some (subtaskConfidence subtask) ∧
          (approvedSubtaskRecord subtask 20).approval_role =
            some (approvalRoleFor (subtaskConfidence subtask)))) ∧
    (∀ (c : ℚ) (co : Option ℚ) (d : String),
      0 ≤ _calculate_approval_confidence c co d ∧
        _calculate_approval_confidence c co d ≤ 1) :=
  approve_task_completion_spec wState3 "r3" "t6" 20 wTaskF (by decide) (by decide)

/-- Witness for C5 at a concrete state (reusing the C2 state, which has an
IN_PROGRESS-free COMPLETED task `t6` and subtask `st1`). -/
theorem notify_task_event_spec_witness :
    (("PENDING" ≠ Event.COMPLETED ∧ "PENDING" ≠ Event.FAILED) →
      ∀ sid, ∃ msg,
        notify_task_event wState3 "r3" "t6" "PENDING" sid none 50 = .error msg) ∧
    ("PENDING" = Event.COMPLETED →
      notify_task_event wState3 "r3" "t6" "PENDING" none none 50 =
        .ok ("event_processed",
          { wState3 with tasks := mset "t6" ({ wTaskF with status := Status.COMPLETED, completed_at := some 50, completed_details := none }) wState3.tasks })) ∧ ("PENDING" = Event.FAILED →
      notify_task_event wState3 "r3" "t6" "PENDING" none none 50 =
        .ok ("event_processed",
          { wState3 with tasks := mset "t6" ({ wTaskF with status := Status.FAILED, failed_at := some 50, failure_details := none }) wState3.tasks })) ∧ (∀ sid subtask, mget sid wState3.subtasks = some subtask →
      ("PENDING" = Event.COMPLETED →
        notify_task_event wState3 "r3" "t6" "PENDING" (some sid) none 50 =
          .ok ("event_processed",
            { wState3 with subtasks := mset sid ({ subtask with status := Status.COMPLETED, completed_at := some 50, completed_details := none }) wState3.subtasks })) ∧ ("PENDING" = Event.FAILED →
        notify_task_event wState3 "r3" "t6" "PENDING" (some sid) none 50 =
          .ok ("event_processed",
            { wState3 with subtasks := mset sid ({ subtask with status := Status.FAILED, failed_at := some 50, failure_details := none }) wState3.subtasks }))) := notify_task_event_spec wState3 "r3" "t6" "PENDING" none 50 wTaskF
    (by decide) (by decide)

/-! ### Claim C3: subtask approval cascades to the parent task -/

/-- **C3.** Approving a COMPLETED subtask of a parent task that owns at
least one subtask completes the parent exactly when, after this approval,
every owned subtask is approved: in that case the parent's status becomes
COMPLETED with completion timestamp `now`; otherwise the parent task record
is left untouched. -/
theorem approve_subtask_parent_cascade (s : TMState) (rid tid sid : String)
    (now : ℚ) (task : Task) (subtask : Subtask)
    (hreq : (mget rid s.requests).isSome = true)
    (htask : mget tid s.tasks = some task)
    (hsub : mget sid s.subtasks = some subtask)
    (hst : subtask.status = Status.COMPLETED)
    (hown : task.subtasks ≠ []) :
    (allSubtasksApproved
        { s with subtasks := mset sid (approvedSubtaskRecord subtask now) s.subtasks }
        task = true →
      approve_task_completion s rid tid (some sid) now =
        .ok ("approved",
          { s with
              subtasks := mset sid (approvedSubtaskRecord subtask now) s.subtasks
              tasks := mset tid
                { task with status := Status.COMPLETED, completed_at := some now }
                s.tasks })) ∧
    (allSubtasksApproved
        { s with subtasks := mset sid (approvedSubtaskRecord subtask now) s.subtasks }
        task = false →
      approve_task_completion s rid tid (some sid) now =
        .ok ("approved",
          { s with
              subtasks := mset sid (approvedSubtaskRecord subtask now) s.subtasks })) := by
  obtain ⟨req, hreq'⟩ := Option.isSome_iff_exists.mp hreq
  have hb : (subtask.status == Status.COMPLETED) = true := by simpa using hst
  have hne : task.subtasks.isEmpty = false := by
    cases hcase : task.subtasks with
    | nil => exact absurd hcase hown
    | cons a l => rfl
  constructor
  · intro hall
    simp [approve_task_completion, hreq', htask, hsub, hb, hall, hne]
  · intro hall
    simp [approve_task_completion, hreq', htask, hsub, hb, hall, hne]

/-- Concrete data for the C3 witness: a parent with two subtasks, the
sibling already approved, the target COMPLETED. -/
def wSubB : Subtask :=
  { wSubA with id := "st2", task_id := "t7", request_id := "r4" }

def wSubC : Subtask :=
  { wSubA with id := "st3", task_id := "t7", request_id := "r4"
               approved := true }

def wTaskG : Task :=
  { wTaskA with id := "t7", request_id := "r4", status := Status.IN_PROGRESS
                subtasks := ["st2", "st3"] }

def wReq4 : Request := { wReq1 with id := "r4", tasks := ["t7"] }

def wState4 : TMState :=
  { requests := [("r4", wReq4)]
    tasks := [("t7", wTaskG)]
    subtasks := [("st2", wSubB), ("st3", wSubC)] }

/-- Witness for C3 at a concrete state. -/
theorem approve_subtask_parent_cascade_witness :
    (allSubtasksApproved
        { wState4 with
            subtasks := mset "st2" (approvedSubtaskRecord wSubB 30) wState4.subtasks }
        wTaskG = true →
      approve_task_completion wState4 "r4" "t7" (some "st2") 30 =
        .ok ("approved",
          { wState4 with
              subtasks := mset "st2" (approvedSubtaskRecord wSubB 30) wState4.subtasks
              tasks := mset "t7"
                { wTaskG with status := Status.COMPLETED, completed_at := some 30 }
                wState4.tasks })) ∧
    (allSubtasksApproved
        { wState4 with
            subtasks := mset "st2" (approvedSubtaskRecord wSubB 30) wState4.subtasks }
        wTaskG = false →
      approve_task_completion wState4 "r4" "t7" (some "st2") 30 =
        .ok ("approved",
          { wState4 with
              subtasks := mset "st2" (approvedSubtaskRecord wSubB 30) wState4.subtasks })) :=
  approve_subtask_parent_cascade wState4 "r4" "t7" "st2" 30 wTaskG wSubB
    (by decide) (by decide) (by decide) (by decide) (by decide)

/-- Witness for C9 at a concrete state. -/
theorem get_next_task_all_done_iff_witness :
    (get_next_task wState2 "r2" = .ok (.all_tasks_done, wState2) ↔
      (requestTasks wState2 wReq2).all
        (fun t => t.status == Status.COMPLETED) = true) ∧
    ((∀ t ∈ requestTasks wState2 wReq2,
        t.status = Status.COMPLETED ∨ t.status = Status.FAILED) →
      (∃ t ∈ requestTasks wState2 wReq2, t.status = Status.FAILED) →
      get_next_task wState2 "r2" = .ok (.no_pending_tasks, wState2)) :=
  get_next_task_all_done_iff wState2 "r2" wReq2 (by decide)

/-! ### `mark_task_done` (claim C6) -/

/-- `mark_task_done(request_id, task_id, subtask_id=None, status=COMPLETED,
completed_details=None)`. -/
def mark_task_done (s : TMState) (request_id task_id : String)
    (subtask_id : Option String) (status : String)
    (completed_details : Option String) (now : ℚ) :
    Except String (String × TMState) :=
  match mget request_id s.requests with
  | none => .error ("Request ID " ++ request_id ++ " not found")
  | some _ =>
    match mget task_id s.tasks with
    | none => .error ("Task ID " ++ task_id ++ " not found")
    | some task =>
      match subtask_id with
      | some sid =>
        match mget sid s.subtasks with
        | none => .error ("Subtask ID " ++ sid ++ " not found")
        | some subtask =>
          let subtask2 : Subtask :=
            { subtask with status := status, completed_at := some now, completed_details := completed_details }
          .ok ("task_done", { s with subtasks := mset sid subtask2 s.subtasks })
      | none =>
        if task.status == Status.IN_PROGRESS || task.status == Status.PENDING then
          let task2 : Task :=
            { task with status := status, completed_at := some now, completed_details := completed_details }
          .ok ("task_done", { s with tasks := mset task_id task2 s.tasks })
        else
          .ok ("already_done", s)

/-- **C6.** On an existing request and task, `mark_task_done` without a
subtask id returns `"already_done"` and mutates nothing when the task is
neither PENDING nor IN_PROGRESS — in particular, a second mark-done after a
first one (default status COMPLETED) returns `"already_done"` and leaves
`completed_at` unchanged; on a PENDING or IN_PROGRESS task it sets status,
completion timestamp and detail text; with a subtask id it sets the
subtask's status, timestamp and details unconditionally. -/
theorem mark_task_done_spec (s : TMState) (rid tid : String) (status : String)
    (details : Option String) (now : ℚ) (task : Task)
    (hreq : (mget rid s.requests).isSome = true)
    (htask : mget tid s.tasks = some task) :
    ((task.status ≠ Status.PENDING ∧ task.status ≠ Status.IN_PROGRESS) →
      mark_task_done s rid tid none status details now = .ok ("already_done", s)) ∧
    ((task.status = Status.PENDING ∨ task.status = Status.IN_PROGRESS) →
      mark_task_done s rid tid none status details now =
        .ok ("task_done", { s with tasks := mset tid ({ task with status := status, completed_at := some now, completed_details := details }) s.tasks })) ∧
    (∀ (now2 : ℚ) (details2 : Option String),
      mark_task_done { s with tasks := mset tid ({ task with status := Status.COMPLETED, completed_at := some now, completed_details := details }) s.tasks } rid tid none Status.COMPLETED details2 now2 =
        .ok ("already_done", { s with tasks := mset tid ({ task with status := Status.COMPLETED, completed_at := some now, completed_details := details }) s.tasks })) ∧
    (∀ sid subtask, mget sid s.subtasks = some subtask →
      mark_task_done s rid tid (some sid) status details now =
        .ok ("task_done", { s with subtasks := mset sid ({ subtask with status := status, completed_at := some now, completed_details := details }) s.subtasks })) := by
  obtain ⟨req, hreq'⟩ := Option.isSome_iff_exists.mp hreq
  refine ⟨?_, ?_, ?_, ?_⟩
  · intro ⟨h1, h2⟩
    have hb1 : (task.status == Status.IN_PROGRESS) = false := by simpa using h2
    have hb2 : (task.status == Status.PENDING) = false := by simpa using h1
    simp [mark_task_done, hreq', htask, hb1, hb2]
  · intro hor
    have hb : (task.status == Status.IN_PROGRESS || task.status == Status.PENDING) = true := by
      rcases hor with h | h <;> simp [h]
    simp [mark_task_done, hreq', htask, hb]
  · intro now2 details2
    simp [mark_task_done, hreq', mget_mset, Status.COMPLETED, Status.IN_PROGRESS,
      Status.PENDING]
  · intro sid subtask hsub
    simp [mark_task_done, hreq', htask, hsub]

/-- Witness for C6 at a concrete state (`t1` is PENDING in `wState1`). -/
theorem mark_task_done_spec_witness :
    ((wTaskA.status ≠ Status.PENDING ∧ wTaskA.status ≠ Status.IN_PROGRESS) →
      mark_task_done wState1 "r1" "t1" none Status.COMPLETED none 60 = .ok ("already_done", wState1)) ∧
    ((wTaskA.status = Status.PENDING ∨ wTaskA.status = Status.IN_PROGRESS) →
      mark_task_done wState1 "r1" "t1" none Status.COMPLETED none 60 =
        .ok ("task_done", { wState1 with tasks := mset "t1" ({ wTaskA with status := Status.COMPLETED, completed_at := some 60, completed_details := none }) wState1.tasks })) ∧
    (∀ (now2 : ℚ) (details2 : Option String),
      mark_task_done { wState1 with tasks := mset "t1" ({ wTaskA with status := Status.COMPLETED, completed_at := some 60, completed_details := none }) wState1.tasks } "r1" "t1" none Status.COMPLETED details2 now2 =
        .ok ("already_done", { wState1 with tasks := mset "t1" ({ wTaskA with status := Status.COMPLETED, completed_at := some 60, completed_details := none }) wState1.tasks })) ∧
    (∀ sid subtask, mget sid wState1.subtasks = some subtask →
      mark_task_done wState1 "r1" "t1" (some sid) Status.COMPLETED none 60 =
        .ok ("task_done", { wState1 with subtasks := mset sid ({ subtask with status := Status.COMPLETED, completed_at := some 60, completed_details := none }) wState1.subtasks })) :=
  mark_task_done_spec wState1 "r1" "t1" Status.COMPLETED none 60 wTaskA
    (by decide) (by decide)

/-! ### `delete_task` (claim C7) -/

theorem mget_foldl_merase {β : Type} (ks : List String) (k : String)
    (m : List (String × β)) :
    mget k (ks.foldl (fun acc k2 => merase k2 acc) m) =
      if k ∈ ks then none else mget k m := by
  induction ks generalizing m with
  | nil => simp
  | cons a ks ih =>
    simp only [List.foldl_cons, ih, mget_merase]
    by_cases h1 : k ∈ ks
    · simp [h1]
    · by_cases h2 : a = k
      · simp [h1, h2, List.mem_cons]
      · have h2b : ¬ k = a := fun h => h2 h.symm
        simp [h1, h2, h2b, List.mem_cons]

/-- `delete_task(request_id, task_id, subtask_id=None)`.
`task["subtasks"].remove(subtask_id)` / `request["tasks"].remove(task_id)`
drop the first occurrence (`List.erase`) and raise `ValueError` before any
mutation when the id is not in the owner sequence; the cascading loop
`for subtask_id in task.get("subtasks", []): if subtask_id in
self.subtasks: del ...` is the fold of `merase`. -/
def delete_task (s : TMState) (request_id task_id : String)
    (subtask_id : Option String) : Except String (String × TMState) :=
  match mget request_id s.requests with
  | none => .error ("Request ID " ++ request_id ++ " not found")
  | some req =>
    match mget task_id s.tasks with
    | none => .error ("Task ID " ++ task_id ++ " not found")
    | some task =>
      match subtask_id with
      | some sid =>
        match mget sid s.subtasks with
        | none => .error ("Subtask ID " ++ sid ++ " not found")
        | some subtask =>
          if subtask.status == Status.COMPLETED || subtask.status == Status.FAILED then
            .ok ("cannot_delete", s)
          else if sid ∈ task.subtasks then
            let task2 : Task := { task with subtasks := task.subtasks.erase sid }
            .ok ("deleted", ⟨s.requests, mset task_id task2 s.tasks, merase sid s.subtasks⟩)
          else
            .error "ValueError: list.remove(x): x not in list"
      | none =>
        if task.status == Status.COMPLETED || task.status == Status.FAILED then
          .ok ("cannot_delete", s)
        else if task_id ∈ req.tasks then
          let req2 : Request := { req with tasks := req.tasks.erase task_id }
          let subtasks2 := task.subtasks.foldl (fun acc sid2 => merase sid2 acc) s.subtasks
          .ok ("deleted", ⟨mset request_id req2 s.requests, merase task_id s.tasks, subtasks2⟩)
        else
          .error "ValueError: list.remove(x): x not in list"

/-- **C7.** `delete_task` on a COMPLETED or FAILED target returns
`"cannot_delete"` and changes nothing; on a task in any other status it
removes the task id from the owning request's task sequence, deletes the
task record, and deletes every one of the task's subtask records
regardless of the subtasks' own statuses. -/
theorem delete_task_spec (s : TMState) (rid tid : String)
    (req : Request) (task : Task)
    (hreq : mget rid s.requests = some req)
    (htask : mget tid s.tasks = some task) :
    ((task.status = Status.COMPLETED ∨ task.status = Status.FAILED) →
      delete_task s rid tid none = .ok ("cannot_delete", s)) ∧
    (∀ sid subtask, mget sid s.subtasks = some subtask →
      (subtask.status = Status.COMPLETED ∨ subtask.status = Status.FAILED) →
      delete_task s rid tid (some sid) = .ok ("cannot_delete", s)) ∧
    (task.status ≠ Status.COMPLETED → task.status ≠ Status.FAILED →
      tid ∈ req.tasks →
      delete_task s rid tid none =
        .ok ("deleted", ⟨mset rid ({ req with tasks := req.tasks.erase tid }) s.requests, merase tid s.tasks, task.subtasks.foldl (fun acc sid2 => merase sid2 acc) s.subtasks⟩) ∧
      mget tid (merase tid s.tasks) = none ∧
      (∀ sid2 ∈ task.subtasks,
        mget sid2 (task.subtasks.foldl (fun acc x => merase x acc) s.subtasks) = none) ∧
      (req.tasks.Nodup → tid ∉ req.tasks.erase tid)) := by
  refine ⟨?_, ?_, ?_⟩
  · intro hor
    have hb : (task.status == Status.COMPLETED || task.status == Status.FAILED) = true := by
      rcases hor with h | h <;> simp [h]
    simp [delete_task, hreq, htask, hb]
  · intro sid subtask hsub hor
    have hb : (subtask.status == Status.COMPLETED || subtask.status == Status.FAILED) = true := by
      rcases hor with h | h <;> simp [h]
    simp [delete_task, hreq, htask, hsub, hb]
  · intro h1 h2 hmem
    have hb1 : (task.status == Status.COMPLETED) = false := by simpa using h1
    have hb2 : (task.status == Status.FAILED) = false := by simpa using h2
    refine ⟨?_, ?_, ?_, ?_⟩
    · simp [delete_task, hreq, htask, hb1, hb2, hmem]
    · simp [mget_merase]
    · intro sid2 hmem
      simp [mget_foldl_merase, hmem]
    · intro hnd hmem
      exact (List.Nodup.mem_erase_iff hnd).mp hmem |>.1 rfl

/-- Witness for C7 at a concrete state (`t7` is IN_PROGRESS with two
subtasks in `wState4`). -/
theorem delete_task_spec_witness :
    ((wTaskG.status = Status.COMPLETED ∨ wTaskG.status = Status.FAILED) →
      delete_task wState4 "r4" "t7" none = .ok ("cannot_delete", wState4)) ∧
    (∀ sid subtask, mget sid wState4.subtasks = some subtask →
      (subtask.status = Status.COMPLETED ∨ subtask.status = Status.FAILED) →
      delete_task wState4 "r4" "t7" (some sid) = .ok ("cannot_delete", wState4)) ∧
    (wTaskG.status ≠ Status.COMPLETED → wTaskG.status ≠ Status.FAILED →
      "t7" ∈ wReq4.tasks →
      delete_task wState4 "r4" "t7" none =
        .ok ("deleted", ⟨mset "r4" ({ wReq4 with tasks := wReq4.tasks.erase "t7" }) wState4.requests, merase "t7" wState4.tasks, wTaskG.subtasks.foldl (fun acc sid2 => merase sid2 acc) wState4.subtasks⟩) ∧
      mget "t7" (merase "t7" wState4.tasks) = none ∧
      (∀ sid2 ∈ wTaskG.subtasks,
        mget sid2 (wTaskG.subtasks.foldl (fun acc x => merase x acc) wState4.subtasks) = none) ∧
      (wReq4.tasks.Nodup → "t7" ∉ wReq4.tasks.erase "t7")) :=
  delete_task_spec wState4 "r4" "t7" wReq4 wTaskG (by decide) (by decide)

/-! ### `update_task` (claim C8) -/

/-- Python truthiness update `if arg: target["field"] = arg` for a `str`
field: `None` and the empty string leave the field unchanged. -/
def pyFieldUpdate (arg : Option String) (old : String) : String :=
  match arg with
  | none => old
  | some v => if v == "" then old else v

/-- Same for the optional `due_date` field. -/
def pyOptFieldUpdate (arg : Option String) (old : Option String) : Option String :=
  match arg with
  | none => old
  | some v => if v == "" then old else some v

/-- The `# Update fields if provided` block on a task. -/
def updatedTaskRecord (t : Task)
    (title description priority due_date : Option String) : Task :=
  { t with title := pyFieldUpdate title t.title
           description := pyFieldUpdate description t.description
           priority := pyFieldUpdate priority t.priority
           due_date := pyOptFieldUpdate due_date t.due_date }

/-- The `# Update fields if provided` block on a subtask. -/
def updatedSubtaskRecord (st : Subtask)
    (title description priority due_date : Option String) : Subtask :=
  { st with title := pyFieldUpdate title st.title
            description := pyFieldUpdate description st.description
            priority := pyFieldUpdate priority st.priority
            due_date := pyOptFieldUpdate due_date st.due_date }

/-- `update_task(request_id, task_id, subtask_id=None, title=None,
description=None, priority=None, due_date=None)`. -/
def update_task (s : TMState) (request_id task_id : String)
    (subtask_id title description priority due_date : Option String) :
    Except String (String × TMState) :=
  match mget request_id s.requests with
  | none => .error ("Request ID " ++ request_id ++ " not found")
  | some _ =>
    match mget task_id s.tasks with
    | none => .error ("Task ID " ++ task_id ++ " not found")
    | some task =>
      match subtask_id with
      | some sid =>
        match mget sid s.subtasks with
        | none => .error ("Subtask ID " ++ sid ++ " not found")
        | some subtask =>
          if subtask.status == Status.COMPLETED || subtask.status == Status.FAILED then
            .ok ("cannot_update", s)
          else
            .ok ("updated", ⟨s.requests, s.tasks, mset sid (updatedSubtaskRecord subtask title description priority due_date) s.subtasks⟩)
      | none =>
        if task.status == Status.COMPLETED || task.status == Status.FAILED then
          .ok ("cannot_update", s)
        else
          .ok ("updated", ⟨s.requests, mset task_id (updatedTaskRecord task title description priority due_date) s.tasks, s.subtasks⟩)

/-- **C8 counterexample.** The claim says a non-terminal target gets
"exactly the fields explicitly supplied" overwritten.  Supplying the empty
string for `title` on the PENDING task `t1` (whose title is `"a"`) returns
`"updated"` but leaves the record — and the whole state — unchanged,
because the Python guard `if title:` treats `""` as not supplied. -/
theorem update_task_empty_string_counterexample :
    update_task wState1 "r1" "t1" none (some "") none none none =
      .ok ("updated", wState1) ∧
    mget "t1" wState1.tasks = some wTaskA ∧
    wTaskA.title = "a" ∧ ("a" : String) ≠ "" :=
  ⟨rfl, rfl, rfl, by decide⟩

/-- **C8 (amended).** `update_task` on a COMPLETED or FAILED target returns
`"cannot_update"` and leaves the record unchanged; on a non-terminal target
it overwrites exactly the fields supplied with a *non-empty* value among
title, description, priority and due date (Python truthiness: an empty
string counts as absent) and leaves every other field of the record
untouched. -/
theorem update_task_spec (s : TMState) (rid tid : String)
    (title description priority due_date : Option String) (task : Task)
    (hreq : (mget rid s.requests).isSome = true)
    (htask : mget tid s.tasks = some task) :
    ((task.status = Status.COMPLETED ∨ task.status = Status.FAILED) →
      update_task s rid tid none title description priority due_date =
        .ok ("cannot_update", s)) ∧
    (task.status ≠ Status.COMPLETED → task.status ≠ Status.FAILED →
      update_task s rid tid none title description priority due_date =
        .ok ("updated", ⟨s.requests, mset tid (updatedTaskRecord task title description priority due_date) s.tasks, s.subtasks⟩)) ∧
    (∀ sid subtask, mget sid s.subtasks = some subtask →
      ((subtask.status = Status.COMPLETED ∨ subtask.status = Status.FAILED) →
        update_task s rid tid (some sid) title description priority due_date =
          .ok ("cannot_update", s)) ∧
      (subtask.status ≠ Status.COMPLETED → subtask.status ≠ Status.FAILED →
        update_task s rid tid (some sid) title description priority due_date =
          .ok ("updated", ⟨s.requests, s.tasks, mset sid (updatedSubtaskRecord subtask title description priority due_date) s.subtasks⟩))) := by
  obtain ⟨req, hreq'⟩ := Option.isSome_iff_exists.mp hreq
  refine ⟨?_, ?_, ?_⟩
  · intro hor
    have hb : (task.status == Status.COMPLETED || task.status == Status.FAILED) = true := by
      rcases hor with h | h <;> simp [h]
    simp [update_task, hreq', htask, hb]
  · intro h1 h2
    have hb1 : (task.status == Status.COMPLETED) = false := by simpa using h1
    have hb2 : (task.status == Status.FAILED) = false := by simpa using h2
    simp [update_task, hreq', htask, hb1, hb2]
  · intro sid subtask hsub
    constructor
    · intro hor
      have hb : (subtask.status == Status.COMPLETED || subtask.status == Status.FAILED) = true := by
        rcases hor with h | h <;> simp [h]
      simp [update_task, hreq', htask, hsub, hb]
    · intro h1 h2
      have hb1 : (subtask.status == Status.COMPLETED) = false := by simpa using h1
      have hb2 : (subtask.status == Status.FAILED) = false := by simpa using h2
      simp [update_task, hreq', htask, hsub, hb1, hb2]

/-- Witness for the amended C8 at a concrete state. -/
theorem update_task_spec_witness :
    ((wTaskA.status = Status.COMPLETED ∨ wTaskA.status = Status.FAILED) →
      update_task wState1 "r1" "t1" none (some "T") none (some "HIGH") none =
        .ok ("cannot_update", wState1)) ∧
    (wTaskA.status ≠ Status.COMPLETED → wTaskA.status ≠ Status.FAILED →
      update_task wState1 "r1" "t1" none (some "T") none (some "HIGH") none =
        .ok ("updated", ⟨wState1.requests, mset "t1" (updatedTaskRecord wTaskA (some "T") none (some "HIGH") none) wState1.tasks, wState1.subtasks⟩)) ∧
    (∀ sid subtask, mget sid wState1.subtasks = some subtask →
      ((subtask.status = Status.COMPLETED ∨ subtask.status = Status.FAILED) →
        update_task wState1 "r1" "t1" (some sid) (some "T") none (some "HIGH") none =
          .ok ("cannot_update", wState1)) ∧
      (subtask.status ≠ Status.COMPLETED → subtask.status ≠ Status.FAILED →
        update_task wState1 "r1" "t1" (some sid) (some "T") none (some "HIGH") none =
          .ok ("updated", ⟨wState1.requests, wState1.tasks, mset sid (updatedSubtaskRecord subtask (some "T") none (some "HIGH") none) wState1.subtasks⟩))) :=
  update_task_spec wState1 "r1" "t1" (some "T") none (some "HIGH") none wTaskA
    (by decide) (by decide)

/-! ### Creation operations: `request_planning`, `add_tasks_to_request`,
`create_subtasks` -/

/-- One element of the `tasks` / `subtasks` argument lists: the
`task_data["title"]` / `task_data["description"]` fields (missing keys
would raise, so the model keeps them total). -/
structure TaskSpec where
  title : String
  description : String
deriving DecidableEq

/-- The task dict built by `request_planning` / `add_tasks_to_request`
for one spec.  The generated `task-<uuid4>` id is the first component of
the pair the operation receives. -/
def newTask (request_id task_id : String) (spec : TaskSpec)
    (priority : String) (due_date : Option String) (now : ℚ) : Task :=
  { id := task_id, request_id := request_id, title := spec.title
    description := spec.description, priority := priority, due_date := due_date
    created_at := now, status := Status.PENDING, subtasks := [] }

/-- The subtask dict built by `create_subtasks` for one spec. -/
def newSubtask (request_id task_id subtask_id : String) (spec : TaskSpec)
    (priority : String) (due_date : Option String) (now : ℚ) : Subtask :=
  { id := subtask_id, task_id := task_id, request_id := request_id
    title := spec.title, description := spec.description, priority := priority
    due_date := due_date, created_at := now, status := Status.PENDING }

/-- `request_planning(original_request, tasks, split_details=None,
priority="MEDIUM", due_date=None)`.  The generated `req-…`/`task-…` ids are
explicit inputs (the uuid draws); each task spec is paired with its id. -/
def request_planning (s : TMState) (request_id : String)
    (tasks : List (String × TaskSpec)) (original_request : String)
    (split_details : Option String) (priority : String)
    (due_date : Option String) (now : ℚ) : String × TMState :=
  let newTasks := tasks.map (fun p => (p.1, newTask request_id p.1 p.2 priority due_date now))
  let req : Request :=
    { id := request_id, original_request := original_request
      split_details := split_details, priority := priority, due_date := due_date
      created_at := now, status := Status.PENDING, tasks := tasks.map Prod.fst }
  ("planned",
    ⟨mset request_id req s.requests,
     newTasks.foldl (fun acc p => mset p.1 p.2 acc) s.tasks,
     s.subtasks⟩)

/-- `if due_date is None: due_date = <inherited>` (an `is None` check, not
truthiness). -/
def resolveDue (arg inherited : Option String) : Option String :=
  match arg with
  | none => inherited
  | some d => some d

/-- `add_tasks_to_request(request_id, tasks, priority=None, due_date=None)`:
absent priority/due date are inherited from the request (an `is None`
check, not truthiness). -/
def add_tasks_to_request (s : TMState) (request_id : String)
    (tasks : List (String × TaskSpec)) (priority : Option String)
    (due_date : Option String) (now : ℚ) : Except String (String × TMState) :=
  match mget request_id s.requests with
  | none => .error ("Request ID " ++ request_id ++ " not found")
  | some req =>
    let pr := priority.getD req.priority
    let dd := resolveDue due_date req.due_date
    let newTasks := tasks.map (fun p => (p.1, newTask request_id p.1 p.2 pr dd now))
    let req2 : Request := { req with tasks := req.tasks ++ tasks.map Prod.fst }
    .ok ("tasks_added",
      ⟨mset request_id req2 s.requests,
       newTasks.foldl (fun acc p => mset p.1 p.2 acc) s.tasks,
       s.subtasks⟩)

/-- `create_subtasks(request_id, task_id, subtasks, priority=None,
due_date=None)`: absent priority/due date are inherited from the task. -/
def create_subtasks (s : TMState) (request_id task_id : String)
    (subtasks : List (String × TaskSpec)) (priority : Option String)
    (due_date : Option String) (now : ℚ) : Except String (String × TMState) :=
  match mget request_id s.requests with
  | none => .error ("Request ID " ++ request_id ++ " not found")
  | some _ =>
    match mget task_id s.tasks with
    | none => .error ("Task ID " ++ task_id ++ " not found")
    | some task =>
      let pr := priority.getD task.priority
      let dd := resolveDue due_date task.due_date
      let newSubs := subtasks.map
        (fun p => (p.1, newSubtask request_id task_id p.1 p.2 pr dd now))
      let task2 : Task := { task with subtasks := task.subtasks ++ subtasks.map Prod.fst }
      .ok ("subtasks_created",
        ⟨s.requests,
         mset task_id task2 s.tasks,
         newSubs.foldl (fun acc p => mset p.1 p.2 acc) s.subtasks⟩)

/-! ### Lemmas about batch insertion -/

theorem mget_foldl_mset_not_mem {β : Type} (k : String) :
    ∀ (ps m : List (String × β)), k ∉ ps.map Prod.fst →
      mget k (ps.foldl (fun acc p => mset p.1 p.2 acc) m) = mget k m := by
  intro ps
  induction ps with
  | nil => intro m _; rfl
  | cons p ps ih =>
    intro m h
    obtain ⟨a, b⟩ := p
    simp only [List.map_cons, List.mem_cons] at h
    push_neg at h
    simp only [List.foldl_cons]
    rw [ih _ h.2, mget_mset, if_neg (fun hk => h.1 hk.symm)]

theorem mget_foldl_mset_mem {β : Type} (k : String) (v : β) :
    ∀ (ps m : List (String × β)), (ps.map Prod.fst).Nodup → (k, v) ∈ ps →
      mget k (ps.foldl (fun acc p => mset p.1 p.2 acc) m) = some v := by
  intro ps
  induction ps with
  | nil => intro m _ h; cases h
  | cons p ps ih =>
    intro m hnd h
    obtain ⟨a, b⟩ := p
    simp only [List.map_cons, List.nodup_cons] at hnd
    simp only [List.foldl_cons]
    rcases List.mem_cons.mp h with hp | hmem
    · cases hp
      rw [mget_foldl_mset_not_mem _ _ _ hnd.1, mget_mset, if_pos rfl]
    · exact ih _ hnd.2 hmem

theorem mget_foldl_mset_cases {β : Type} (k : String) (v : β) :
    ∀ (ps m : List (String × β)),
      mget k (ps.foldl (fun acc p => mset p.1 p.2 acc) m) = some v →
      (k, v) ∈ ps ∨ mget k m = some v := by
  intro ps
  induction ps with
  | nil => intro m h; exact Or.inr h
  | cons p ps ih =>
    intro m h
    obtain ⟨a, b⟩ := p
    simp only [List.foldl_cons] at h
    rcases ih _ h with hmem | hbase
    · exact Or.inl (List.mem_cons_of_mem _ hmem)
    · rw [mget_mset] at hbase
      by_cases hk : a = k
      · rw [if_pos hk] at hbase
        injection hbase with hv
        subst hk
        subst hv
        exact Or.inl (List.mem_cons_self _ _)
      · rw [if_neg hk] at hbase
        exact Or.inr hbase

/-! ### Claim C10: referential integrity of the three mappings -/

/-- The well-formedness invariant maintained by every operation: each
request's listed task ids resolve to task records that point back to the
request (and the list has no duplicates), each task's listed subtask ids
resolve to subtask records that point back to the task, and each task
record's `id` field is its map key. -/
structure StateWF (s : TMState) : Prop where
  reqOwn : ∀ rid req, mget rid s.requests = some req →
    req.tasks.Nodup ∧
      ∀ tid ∈ req.tasks, ∃ t, mget tid s.tasks = some t ∧ t.request_id = rid
  taskOwn : ∀ tid t, mget tid s.tasks = some t →
    t.id = tid ∧ t.subtasks.Nodup ∧
      ∀ sid ∈ t.subtasks, ∃ st, mget sid s.subtasks = some st ∧ st.task_id = tid

/-- The referential-integrity property claimed: every task id listed by a
request is a key of the task map whose record names the owning request,
and every subtask id listed by a task is a key of the subtask map whose
record names the owning task. -/
def RefIntegrity (s : TMState) : Prop :=
  (∀ rid req, mget rid s.requests = some req →
    ∀ tid ∈ req.tasks, ∃ t, mget tid s.tasks = some t ∧ t.request_id = rid) ∧
  (∀ tid t, mget tid s.tasks = some t →
    ∀ sid ∈ t.subtasks, ∃ st, mget sid s.subtasks = some st ∧ st.task_id = tid)

theorem StateWF.refIntegrity {s : TMState} (h : StateWF s) : RefIntegrity s :=
  ⟨fun rid req hr => (h.reqOwn rid req hr).2,
   fun tid t ht => (h.taskOwn tid t ht).2.2⟩

theorem stateWF_init : StateWF initState where
  reqOwn := by intro rid req hr; cases hr
  taskOwn := by intro tid t ht; cases ht

/-! Shape lemmas: overwriting one record while preserving the fields the
invariant tracks. -/

theorem stateWF_mset_task {s : TMState} (hwf : StateWF s) (tid : String)
    {task t2 : Task} (h : mget tid s.tasks = some task)
    (hid : t2.id = task.id) (hrid : t2.request_id = task.request_id)
    (hsub : t2.subtasks = task.subtasks) :
    StateWF { s with tasks := mset tid t2 s.tasks } where
  reqOwn := by
    intro rid req hr
    obtain ⟨hnd, hown⟩ := hwf.reqOwn rid req hr
    refine ⟨hnd, ?_⟩
    intro tid' htid'
    obtain ⟨t, ht, htr⟩ := hown tid' htid'
    by_cases hk : tid = tid'
    · subst hk
      rw [h] at ht
      cases ht
      exact ⟨t2, by rw [mget_mset]; simp, by rw [hrid]; exact htr⟩
    · exact ⟨t, by rw [mget_mset, if_neg hk]; exact ht, htr⟩
  taskOwn := by
    intro tid' t' ht'
    rw [mget_mset] at ht'
    by_cases hk : tid = tid'
    · subst hk
      rw [if_pos rfl] at ht'
      cases ht'
      obtain ⟨hi, hnd, hown⟩ := hwf.taskOwn tid task h
      exact ⟨by rw [hid, hi], by rw [hsub]; exact hnd,
        by rw [hsub]; exact hown⟩
    · rw [if_neg hk] at ht'
      exact hwf.taskOwn tid' t' ht'

theorem stateWF_mset_subtask {s : TMState} (hwf : StateWF s) (sid : String)
    {st st2 : Subtask} (h : mget sid s.subtasks = some st)
    (htid : st2.task_id = st.task_id) :
    StateWF { s with subtasks := mset sid st2 s.subtasks } where
  reqOwn := hwf.reqOwn
  taskOwn := by
    intro tid t ht
    obtain ⟨hi, hnd, hown⟩ := hwf.taskOwn tid t ht
    refine ⟨hi, hnd, ?_⟩
    intro sid' hsid'
    obtain ⟨st', hst', hstid⟩ := hown sid' hsid'
    by_cases hk : sid = sid'
    · subst hk
      rw [h] at hst'
      cases hst'
      exact ⟨st2, by rw [mget_mset]; simp, by rw [htid]; exact hstid⟩
    · exact ⟨st', by rw [mget_mset, if_neg hk]; exact hst', hstid⟩

theorem stateWF_mset_request {s : TMState} (hwf : StateWF s) (rid : String)
    {req req2 : Request} (h : mget rid s.requests = some req)
    (htasks : req2.tasks = req.tasks) :
    StateWF { s with requests := mset rid req2 s.requests } where
  reqOwn := by
    intro rid' req' hr'
    rw [mget_mset] at hr'
    by_cases hk : rid = rid'
    · subst hk
      rw [if_pos rfl] at hr'
      cases hr'
      obtain ⟨hnd, hown⟩ := hwf.reqOwn rid req h
      exact ⟨by rw [htasks]; exact hnd, by rw [htasks]; exact hown⟩
    · rw [if_neg hk] at hr'
      exact hwf.reqOwn rid' req' hr'
  taskOwn := hwf.taskOwn

/-- The state component of an operation result: a raised `ValueError`
leaves the three mappings untouched (every `raise` in the source happens
before any mutation). -/
def stateOf {α : Type} (r : Except String (α × TMState)) (s : TMState) : TMState :=
  match r with
  | .ok (_, s2) => s2
  | .error _ => s

theorem stateWF_get_next_task (s : TMState) (rid : String)
    (hwf : StateWF s) :
    StateWF (stateOf (get_next_task s rid) s) := by
  cases hr : mget rid s.requests with
  | none =>
    have hfinal : stateOf (get_next_task s rid) s = s := by
      simp [get_next_task, hr, stateOf]
    rw [hfinal]
    exact hwf
  | some req =>
    by_cases hall : (requestTasks s req).all (fun t => t.status == Status.COMPLETED) = true
    · have hfinal : stateOf (get_next_task s rid) s = s := by
        simp [get_next_task, hr, hall, stateOf]
      rw [hfinal]
      exact hwf
    · have hallf : (requestTasks s req).all (fun t => t.status == Status.COMPLETED) = false := by
        revert hall
        cases (requestTasks s req).all (fun t => t.status == Status.COMPLETED) <;> simp
      cases hs : sortByKey taskKey (pendingTasks s req) with
      | nil =>
        by_cases hip : (inProgressTasks s req).length > 0
        · have hfinal : stateOf (get_next_task s rid) s = s := by
            simp [get_next_task, hr, hallf, hs, hip, stateOf]
          rw [hfinal]
          exact hwf
        · have hfinal : stateOf (get_next_task s rid) s = s := by
            simp [get_next_task, hr, hallf, hs, hip, stateOf]
          rw [hfinal]
          exact hwf
      | cons next rest =>
        have hfa : firstArgmin taskKey (pendingTasks s req) = some next := by
          rw [← sortByKey_head, hs]
          rfl
        have hmem : next ∈ (requestTasks s req).filter (fun t => t.status == Status.PENDING) := by
          have h0 := firstArgmin_mem taskKey hfa
          simpa [pendingTasks] using h0
        have hmem2 : next ∈ requestTasks s req := List.mem_of_mem_filter hmem
        obtain ⟨tid0, htid0, hlook⟩ :
            ∃ tid0, tid0 ∈ req.tasks ∧ mget tid0 s.tasks = some next := by
          have h1 : next ∈ req.tasks.filterMap (fun tid => mget tid s.tasks) := by
            simpa [requestTasks] using hmem2
          obtain ⟨a, ha, hfa2⟩ := List.mem_filterMap.mp h1
          exact ⟨a, ha, hfa2⟩
        have hid : next.id = tid0 := (hwf.taskOwn tid0 next hlook).1
        have hfinal : stateOf (get_next_task s rid) s =
            { s with tasks := mset next.id { next with status := Status.IN_PROGRESS } s.tasks } := by
          simp [get_next_task, hr, hallf, hs, stateOf]
        rw [hfinal]
        have hstep : StateWF
            { s with tasks := mset tid0 { next with status := Status.IN_PROGRESS } s.tasks } :=
          stateWF_mset_task hwf tid0 hlook rfl rfl rfl
        rwa [← hid] at hstep

theorem stateWF_mark_task_done (s : TMState) (rid tid : String)
    (sub : Option String) (status : String) (details : Option String) (now : ℚ)
    (hwf : StateWF s) :
    StateWF (stateOf (mark_task_done s rid tid sub status details now) s) := by
  cases hr : mget rid s.requests with
  | none =>
    have hfinal : stateOf (mark_task_done s rid tid sub status details now) s = s := by
      simp [mark_task_done, hr, stateOf]
    rw [hfinal]
    exact hwf
  | some req =>
    cases ht : mget tid s.tasks with
    | none =>
      have hfinal : stateOf (mark_task_done s rid tid sub status details now) s = s := by
        simp [mark_task_done, hr, ht, stateOf]
      rw [hfinal]
      exact hwf
    | some task =>
      cases sub with
      | some sid =>
        cases hs : mget sid s.subtasks with
        | none =>
          have hfinal : stateOf (mark_task_done s rid tid (some sid) status details now) s = s := by
            simp [mark_task_done, hr, ht, hs, stateOf]
          rw [hfinal]
          exact hwf
        | some st =>
          have hfinal : stateOf (mark_task_done s rid tid (some sid) status details now) s =
              { s with subtasks := mset sid ({ st with status := status, completed_at := some now, completed_details := details }) s.subtasks } := by
            simp [mark_task_done, hr, ht, hs, stateOf]
          rw [hfinal]
          exact stateWF_mset_subtask hwf sid hs rfl
      | none =>
        by_cases hg : (task.status == Status.IN_PROGRESS || task.status == Status.PENDING) = true
        · have hfinal : stateOf (mark_task_done s rid tid none status details now) s =
              { s with tasks := mset tid ({ task with status := status, completed_at := some now, completed_details := details }) s.tasks } := by
            simp [mark_task_done, hr, ht, hg, stateOf]
          rw [hfinal]
          exact stateWF_mset_task hwf tid ht rfl rfl rfl
        · have hgf : (task.status == Status.IN_PROGRESS || task.status == Status.PENDING) = false := by
            revert hg
            cases (task.status == Status.IN_PROGRESS || task.status == Status.PENDING) <;> simp
          have hfinal : stateOf (mark_task_done s rid tid none status details now) s = s := by
            simp [mark_task_done, hr, ht, hgf, stateOf]
          rw [hfinal]
          exact hwf

theorem stateWF_approve_request_completion (s : TMState) (rid : String)
    (now : ℚ) (hwf : StateWF s) :
    StateWF (stateOf (approve_request_completion s rid now) s) := by
  cases hr : mget rid s.requests with
  | none =>
    have hfinal : stateOf (approve_request_completion s rid now) s = s := by
      simp [approve_request_completion, hr, stateOf]
    rw [hfinal]
    exact hwf
  | some req =>
    by_cases hall : allTasksCompletedApproved s req = true
    · have hfinal : stateOf (approve_request_completion s rid now) s =
          { s with requests := mset rid ({ req with status := Status.COMPLETED, completed_at := some now }) s.requests } := by
        simp [approve_request_completion, hr, hall, stateOf]
      rw [hfinal]
      exact stateWF_mset_request hwf rid hr rfl
    · have hallf : allTasksCompletedApproved s req = false := by
        revert hall
        cases allTasksCompletedApproved s req <;> simp
      have hfinal : stateOf (approve_request_completion s rid now) s = s := by
        simp [approve_request_completion, hr, hallf, stateOf]
      rw [hfinal]
      exact hwf

theorem stateWF_update_task (s : TMState) (rid tid : String)
    (sub title description priority due_date : Option String)
    (hwf : StateWF s) :
    StateWF (stateOf (update_task s rid tid sub title description priority due_date) s) := by
  cases hr : mget rid s.requests with
  | none =>
    have hfinal : stateOf (update_task s rid tid sub title description priority due_date) s = s := by
      simp [update_task, hr, stateOf]
    rw [hfinal]
    exact hwf
  | some req =>
    cases ht : mget tid s.tasks with
    | none =>
      have hfinal : stateOf (update_task s rid tid sub title description priority due_date) s = s := by
        simp [update_task, hr, ht, stateOf]
      rw [hfinal]
      exact hwf
    | some task =>
      cases sub with
      | some sid =>
        cases hs : mget sid s.subtasks with
        | none =>
          have hfinal : stateOf (update_task s rid tid (some sid) title description priority due_date) s = s := by
            simp [update_task, hr, ht, hs, stateOf]
          rw [hfinal]
          exact hwf
        | some st =>
          by_cases hg : (st.status == Status.COMPLETED || st.status == Status.FAILED) = true
          · have hfinal : stateOf (update_task s rid tid (some sid) title description priority due_date) s = s := by
              simp [update_task, hr, ht, hs, hg, stateOf]
            rw [hfinal]
            exact hwf
          · have hgf : (st.status == Status.COMPLETED || st.status == Status.FAILED) = false := by
              revert hg
              cases (st.status == Status.COMPLETED || st.status == Status.FAILED) <;> simp
            have hfinal : stateOf (update_task s rid tid (some sid) title description priority due_date) s =
                { s with subtasks := mset sid (updatedSubtaskRecord st title description priority due_date) s.subtasks } := by
              simp [update_task, hr, ht, hs, hgf, stateOf]
            rw [hfinal]
            exact stateWF_mset_subtask hwf sid hs rfl
      | none =>
        by_cases hg : (task.status == Status.COMPLETED || task.status == Status.FAILED) = true
        · have hfinal : stateOf (update_task s rid tid none title description priority due_date) s = s := by
            simp [update_task, hr, ht, hg, stateOf]
          rw [hfinal]
          exact hwf
        · have hgf : (task.status == Status.COMPLETED || task.status == Status.FAILED) = false := by
            revert hg
            cases (task.status == Status.COMPLETED || task.status == Status.FAILED) <;> simp
          have hfinal : stateOf (update_task s rid tid none title description priority due_date) s =
              { s with tasks := mset tid (updatedTaskRecord task title description priority due_date) s.tasks } := by
            simp [update_task, hr, ht, hgf, stateOf]
          rw [hfinal]
          exact stateWF_mset_task hwf tid ht rfl rfl rfl

theorem stateWF_notify_task_event (s : TMState) (rid tid ev : String)
    (sub details : Option String) (now : ℚ) (hwf : StateWF s) :
    StateWF (stateOf (notify_task_event s rid tid ev sub details now) s) := by
  cases hr : mget rid s.requests with
  | none =>
    have hfinal : stateOf (notify_task_event s rid tid ev sub details now) s = s := by
      simp [notify_task_event, hr, stateOf]
    rw [hfinal]
    exact hwf
  | some req =>
    cases ht : mget tid s.tasks with
    | none =>
      have hfinal : stateOf (notify_task_event s rid tid ev sub details now) s = s := by
        simp [notify_task_event, hr, ht, stateOf]
      rw [hfinal]
      exact hwf
    | some task =>
      by_cases hv : (ev == Event.COMPLETED || ev == Event.FAILED) = true
      · cases sub with
        | some sid =>
          cases hs : mget sid s.subtasks with
          | none =>
            have hfinal : stateOf (notify_task_event s rid tid ev (some sid) details now) s = s := by
              simp [notify_task_event, hr, ht, hv, hs, stateOf]
            rw [hfinal]
            exact hwf
          | some st =>
            by_cases hev : (ev == Event.COMPLETED) = true
            · have hfinal : stateOf (notify_task_event s rid tid ev (some sid) details now) s =
                  { s with subtasks := mset sid ({ st with status := Status.COMPLETED, completed_at := some now, completed_details := details }) s.subtasks } := by
                simp [notify_task_event, hr, ht, hv, hs, hev, stateOf]
              rw [hfinal]
              exact stateWF_mset_subtask hwf sid hs rfl
            · have hevf : (ev == Event.COMPLETED) = false := by
                revert hev
                cases (ev == Event.COMPLETED) <;> simp
              have hevF : ev = Event.FAILED := by
                have hb : (ev == Event.FAILED) = true := by
                  revert hv
                  rw [hevf]
                  simp
                simpa using hb
              have hfinal : stateOf (notify_task_event s rid tid ev (some sid) details now) s =
                  { s with subtasks := mset sid ({ st with status := Status.FAILED, failed_at := some now, failure_details := details }) s.subtasks } := by
                simp [notify_task_event, hr, ht, hv, hs, hevf, hevF, stateOf, Event.COMPLETED, Event.FAILED]
              rw [hfinal]
              exact stateWF_mset_subtask hwf sid hs rfl
        | none =>
          by_cases hev : (ev == Event.COMPLETED) = true
          · have hfinal : stateOf (notify_task_event s rid tid ev none details now) s =
                { s with tasks := mset tid ({ task with status := Status.COMPLETED, completed_at := some now, completed_details := details }) s.tasks } := by
              simp [notify_task_event, hr, ht, hv, hev, stateOf]
            rw [hfinal]
            exact stateWF_mset_task hwf tid ht rfl rfl rfl
          · have hevf : (ev == Event.COMPLETED) = false := by
              revert hev
              cases (ev == Event.COMPLETED) <;> simp
            have hevF : ev = Event.FAILED := by
              have hb : (ev == Event.FAILED) = true := by
                revert hv
                rw [hevf]
                simp
              simpa using hb
            have hfinal : stateOf (notify_task_event s rid tid ev none details now) s =
                { s with tasks := mset tid ({ task with status := Status.FAILED, failed_at := some now, failure_details := details }) s.tasks } := by
              simp [notify_task_event, hr, ht, hv, hevf, hevF, stateOf, Event.COMPLETED, Event.FAILED]
            rw [hfinal]
            exact stateWF_mset_task hwf tid ht rfl rfl rfl
      · have hvf : (ev == Event.COMPLETED || ev == Event.FAILED) = false := by
          revert hv
          cases (ev == Event.COMPLETED || ev == Event.FAILED) <;> simp
        have hfinal : stateOf (notify_task_event s rid tid ev sub details now) s = s := by
          simp [notify_task_event, hr, ht, hvf, stateOf]
        rw [hfinal]
        exact hwf

theorem stateWF_approve_task_completion (s : TMState) (rid tid : String)
    (sub : Option String) (now : ℚ) (hwf : StateWF s) :
    StateWF (stateOf (approve_task_completion s rid tid sub now) s) := by
  cases hr : mget rid s.requests with
  | none =>
    have hfinal : stateOf (approve_task_completion s rid tid sub now) s = s := by
      simp [approve_task_completion, hr, stateOf]
    rw [hfinal]
    exact hwf
  | some req =>
    cases ht : mget tid s.tasks with
    | none =>
      have hfinal : stateOf (approve_task_completion s rid tid sub now) s = s := by
        simp [approve_task_completion, hr, ht, stateOf]
      rw [hfinal]
      exact hwf
    | some task =>
      cases sub with
      | none =>
        by_cases hb : (task.status == Status.COMPLETED) = true
        · have hfinal : stateOf (approve_task_completion s rid tid none now) s =
              { s with tasks := mset tid (approvedTaskRecord task now) s.tasks } := by
            simp [approve_task_completion, hr, ht, hb, stateOf]
          rw [hfinal]
          exact stateWF_mset_task hwf tid ht rfl rfl rfl
        · have hbf : (task.status == Status.COMPLETED) = false := by
            revert hb
            cases (task.status == Status.COMPLETED) <;> simp
          have hfinal : stateOf (approve_task_completion s rid tid none now) s = s := by
            simp [approve_task_completion, hr, ht, hbf, stateOf]
          rw [hfinal]
          exact hwf
      | some sid =>
        cases hs : mget sid s.subtasks with
        | none =>
          have hfinal : stateOf (approve_task_completion s rid tid (some sid) now) s = s := by
            simp [approve_task_completion, hr, ht, hs, stateOf]
          rw [hfinal]
          exact hwf
        | some st =>
          by_cases hb : (st.status == Status.COMPLETED) = true
          · have hwf1 : StateWF
                { s with subtasks := mset sid (approvedSubtaskRecord st now) s.subtasks } :=
              stateWF_mset_subtask hwf sid hs rfl
            by_cases hall : (allSubtasksApproved
                { s with subtasks := mset sid (approvedSubtaskRecord st now) s.subtasks } task
                && !task.subtasks.isEmpty) = true
            · have hfinal : stateOf (approve_task_completion s rid tid (some sid) now) s =
                  { s with
                      subtasks := mset sid (approvedSubtaskRecord st now) s.subtasks
                      tasks := mset tid ({ task with status := Status.COMPLETED, completed_at := some now }) s.tasks } := by
                simp [approve_task_completion, hr, ht, hs, hb, hall, stateOf]
              rw [hfinal]
              exact stateWF_mset_task hwf1 tid ht rfl rfl rfl
            · have hallf : (allSubtasksApproved
                  { s with subtasks := mset sid (approvedSubtaskRecord st now) s.subtasks } task
                  && !task.subtasks.isEmpty) = false := by
                revert hall
                cases (allSubtasksApproved
                  { s with subtasks := mset sid (approvedSubtaskRecord st now) s.subtasks } task
                  && !task.subtasks.isEmpty) <;> simp
              have hfinal : stateOf (approve_task_completion s rid tid (some sid) now) s =
                  { s with subtasks := mset sid (approvedSubtaskRecord st now) s.subtasks } := by
                simp [approve_task_completion, hr, ht, hs, hb, hallf, stateOf]
              rw [hfinal]
              exact hwf1
          · have hbf : (st.status == Status.COMPLETED) = false := by
              revert hb
              cases (st.status == Status.COMPLETED) <;> simp
            have hfinal : stateOf (approve_task_completion s rid tid (some sid) now) s = s := by
              simp [approve_task_completion, hr, ht, hs, hbf, stateOf]
            rw [hfinal]
            exact hwf

theorem stateWF_delete_task (s : TMState) (rid tid : String)
    (sub : Option String) (hwf : StateWF s) :
    StateWF (stateOf (delete_task s rid tid sub) s) := by
  cases hr : mget rid s.requests with
  | none =>
    have hfinal : stateOf (delete_task s rid tid sub) s = s := by
      simp [delete_task, hr, stateOf]
    rw [hfinal]
    exact hwf
  | some req =>
    cases ht : mget tid s.tasks with
    | none =>
      have hfinal : stateOf (delete_task s rid tid sub) s = s := by
        simp [delete_task, hr, ht, stateOf]
      rw [hfinal]
      exact hwf
    | some task =>
      cases sub with
      | some sid =>
        cases hs : mget sid s.subtasks with
        | none =>
          have hfinal : stateOf (delete_task s rid tid (some sid)) s = s := by
            simp [delete_task, hr, ht, hs, stateOf]
          rw [hfinal]
          exact hwf
        | some st =>
          by_cases hg : (st.status == Status.COMPLETED || st.status == Status.FAILED) = true
          · have hfinal : stateOf (delete_task s rid tid (some sid)) s = s := by
              simp [delete_task, hr, ht, hs, hg, stateOf]
            rw [hfinal]
            exact hwf
          · have hgf : (st.status == Status.COMPLETED || st.status == Status.FAILED) = false := by
              revert hg
              cases (st.status == Status.COMPLETED || st.status == Status.FAILED) <;> simp
            by_cases hmem : sid ∈ task.subtasks
            · have hfinal : stateOf (delete_task s rid tid (some sid)) s =
                  ⟨s.requests, mset tid ({ task with subtasks := task.subtasks.erase sid }) s.tasks,
                   merase sid s.subtasks⟩ := by
                simp [delete_task, hr, ht, hs, hgf, hmem, stateOf]
              rw [hfinal]
              constructor
              · intro rid' req' hr'
                obtain ⟨hnd, hown⟩ := hwf.reqOwn rid' req' hr'
                refine ⟨hnd, ?_⟩
                intro tid' htid'
                obtain ⟨t, htl, htr⟩ := hown tid' htid'
                by_cases hk : tid = tid'
                · subst hk
                  rw [ht] at htl
                  cases htl
                  exact ⟨{ task with subtasks := task.subtasks.erase sid },
                    by rw [mget_mset, if_pos rfl], htr⟩
                · exact ⟨t, by rw [mget_mset, if_neg hk]; exact htl, htr⟩
              · intro tid' t' htl'
                rw [mget_mset] at htl'
                by_cases hk : tid = tid'
                · rw [if_pos hk] at htl'
                  injection htl' with h2
                  subst h2
                  subst hk
                  obtain ⟨hi, hnd, hown⟩ := hwf.taskOwn tid task ht
                  refine ⟨hi, List.Nodup.erase sid hnd, ?_⟩
                  intro sid' hsid'
                  have hmem2 := (List.Nodup.mem_erase_iff hnd).mp hsid'
                  obtain ⟨st', hst', hstid⟩ := hown sid' hmem2.2
                  refine ⟨st', ?_, hstid⟩
                  rw [mget_merase, if_neg (fun h => hmem2.1 h.symm)]
                  exact hst'
                · rw [if_neg hk] at htl'
                  obtain ⟨hi, hnd, hown⟩ := hwf.taskOwn tid' t' htl'
                  refine ⟨hi, hnd, ?_⟩
                  intro sid' hsid'
                  obtain ⟨st', hst', hstid⟩ := hown sid' hsid'
                  refine ⟨st', ?_, hstid⟩
                  rw [mget_merase]
                  have hne : ¬ sid = sid' := by
                    intro he
                    subst he
                    rw [hs] at hst'
                    cases hst'
                    obtain ⟨_, _, hown0⟩ := hwf.taskOwn tid task ht
                    obtain ⟨stx, hstx, hstxid⟩ := hown0 sid hmem
                    rw [hs] at hstx
                    cases hstx
                    exact hk (by rw [← hstxid, hstid])
                  rw [if_neg hne]
                  exact hst'
            · have hfinal : stateOf (delete_task s rid tid (some sid)) s = s := by
                simp [delete_task, hr, ht, hs, hgf, hmem, stateOf]
              rw [hfinal]
              exact hwf
      | none =>
        by_cases hg : (task.status == Status.COMPLETED || task.status == Status.FAILED) = true
        · have hfinal : stateOf (delete_task s rid tid none) s = s := by
            simp [delete_task, hr, ht, hg, stateOf]
          rw [hfinal]
          exact hwf
        · have hgf : (task.status == Status.COMPLETED || task.status == Status.FAILED) = false := by
            revert hg
            cases (task.status == Status.COMPLETED || task.status == Status.FAILED) <;> simp
          by_cases hmem : tid ∈ req.tasks
          · have hfinal : stateOf (delete_task s rid tid none) s =
                ⟨mset rid ({ req with tasks := req.tasks.erase tid }) s.requests,
                 merase tid s.tasks,
                 task.subtasks.foldl (fun acc sid2 => merase sid2 acc) s.subtasks⟩ := by
              simp [delete_task, hr, ht, hgf, hmem, stateOf]
            rw [hfinal]
            constructor
            · intro rid' req' hr'
              rw [mget_mset] at hr'
              by_cases hk : rid = rid'
              · rw [if_pos hk] at hr'
                injection hr' with h2
                subst h2
                subst hk
                obtain ⟨hnd, hown⟩ := hwf.reqOwn rid req hr
                refine ⟨List.Nodup.erase tid hnd, ?_⟩
                intro tid' htid'
                have hmem2 := (List.Nodup.mem_erase_iff hnd).mp htid'
                obtain ⟨t, htl, htr⟩ := hown tid' hmem2.2
                refine ⟨t, ?_, htr⟩
                rw [mget_merase, if_neg (fun h => hmem2.1 h.symm)]
                exact htl
              · rw [if_neg hk] at hr'
                obtain ⟨hnd, hown⟩ := hwf.reqOwn rid' req' hr'
                refine ⟨hnd, ?_⟩
                intro tid' htid'
                obtain ⟨t, htl, htr⟩ := hown tid' htid'
                refine ⟨t, ?_, htr⟩
                rw [mget_merase]
                have hne : ¬ tid = tid' := by
                  intro he
                  subst he
                  rw [ht] at htl
                  cases htl
                  obtain ⟨_, hown0⟩ := hwf.reqOwn rid req hr
                  obtain ⟨tx, htx, htxr⟩ := hown0 tid hmem
                  rw [ht] at htx
                  cases htx
                  exact hk (by rw [← htxr, htr])
                rw [if_neg hne]
                exact htl
            · intro tid' t' htl'
              rw [mget_merase] at htl'
              by_cases hk : tid = tid'
              · rw [if_pos hk] at htl'
                cases htl'
              · rw [if_neg hk] at htl'
                obtain ⟨hi, hnd, hown⟩ := hwf.taskOwn tid' t' htl'
                refine ⟨hi, hnd, ?_⟩
                intro sid' hsid'
                obtain ⟨st', hst', hstid⟩ := hown sid' hsid'
                have hnmem : sid' ∉ task.subtasks := by
                  intro hin
                  obtain ⟨_, _, hown0⟩ := hwf.taskOwn tid task ht
                  obtain ⟨stx, hstx, hstxid⟩ := hown0 sid' hin
                  rw [hst'] at hstx
                  cases hstx
                  exact hk (by rw [← hstxid, hstid])
                refine ⟨st', ?_, hstid⟩
                rw [mget_foldl_merase, if_neg hnmem]
                exact hst'
          · have hfinal : stateOf (delete_task s rid tid none) s = s := by
              simp [delete_task, hr, ht, hgf, hmem, stateOf]
            rw [hfinal]
            exact hwf

theorem newTasks_keys (rid : String) (tasks : List (String × TaskSpec))
    (pr : String) (dd : Option String) (now : ℚ) :
    (tasks.map (fun p => (p.1, newTask rid p.1 p.2 pr dd now))).map Prod.fst =
      tasks.map Prod.fst := by
  rw [List.map_map]
  rfl

theorem stateWF_request_planning (s : TMState) (rid : String)
    (tasks : List (String × TaskSpec)) (orig : String) (split : Option String)
    (pr : String) (dd : Option String) (now : ℚ) (hwf : StateWF s)
    (hnd : (tasks.map Prod.fst).Nodup)
    (hfresh : ∀ p ∈ tasks, mget p.1 s.tasks = none) :
    StateWF (request_planning s rid tasks orig split pr dd now).2 := by
  show StateWF
    ⟨mset rid
       { id := rid, original_request := orig, split_details := split
         priority := pr, due_date := dd, created_at := now
         status := Status.PENDING, tasks := tasks.map Prod.fst } s.requests,
     (tasks.map (fun p => (p.1, newTask rid p.1 p.2 pr dd now))).foldl
       (fun acc p => mset p.1 p.2 acc) s.tasks,
     s.subtasks⟩
  constructor
  · intro rid' req' hr'
    rw [mget_mset] at hr'
    by_cases hk : rid = rid'
    · rw [if_pos hk] at hr'
      injection hr' with h2
      subst h2
      subst hk
      refine ⟨hnd, ?_⟩
      intro tid' htid'
      obtain ⟨p, hp, hp1⟩ := List.mem_map.mp htid'
      subst hp1
      refine ⟨newTask rid p.1 p.2 pr dd now, ?_, rfl⟩
      apply mget_foldl_mset_mem
      · rw [newTasks_keys]
        exact hnd
      · exact List.mem_map.mpr ⟨p, hp, rfl⟩
    · rw [if_neg hk] at hr'
      obtain ⟨hnd', hown⟩ := hwf.reqOwn rid' req' hr'
      refine ⟨hnd', ?_⟩
      intro tid' htid'
      obtain ⟨t, htl, htr⟩ := hown tid' htid'
      refine ⟨t, ?_, htr⟩
      rw [mget_foldl_mset_not_mem]
      · exact htl
      · rw [newTasks_keys]
        intro hin
        obtain ⟨p, hp, hp1⟩ := List.mem_map.mp hin
        have hf := hfresh p hp
        rw [hp1] at hf
        rw [hf] at htl
        cases htl
  · intro tid' t' htl'
    rcases mget_foldl_mset_cases _ _ _ _ htl' with hmem | hold
    · obtain ⟨p, hp, hpe⟩ := List.mem_map.mp hmem
      cases hpe
      refine ⟨rfl, ?_, ?_⟩
      · simp [newTask]
      · intro sid hsid
        simp [newTask] at hsid
    · obtain ⟨hi, hnd', hown⟩ := hwf.taskOwn tid' t' hold
      exact ⟨hi, hnd', hown⟩

theorem stateWF_add_tasks_to_request (s : TMState) (rid : String)
    (tasks : List (String × TaskSpec)) (pr : Option String)
    (dd : Option String) (now : ℚ) (hwf : StateWF s)
    (hnd : (tasks.map Prod.fst).Nodup)
    (hfresh : ∀ p ∈ tasks, mget p.1 s.tasks = none) :
    StateWF (stateOf (add_tasks_to_request s rid tasks pr dd now) s) := by
  cases hr : mget rid s.requests with
  | none =>
    have hfinal : stateOf (add_tasks_to_request s rid tasks pr dd now) s = s := by
      simp [add_tasks_to_request, hr, stateOf]
    rw [hfinal]
    exact hwf
  | some req =>
    have hfinal : stateOf (add_tasks_to_request s rid tasks pr dd now) s =
        ⟨mset rid ({ req with tasks := req.tasks ++ tasks.map Prod.fst }) s.requests,
         (tasks.map (fun p => (p.1, newTask rid p.1 p.2 (pr.getD req.priority)
             (resolveDue dd req.due_date) now))).foldl
           (fun acc p => mset p.1 p.2 acc) s.tasks,
         s.subtasks⟩ := by
      simp [add_tasks_to_request, hr, stateOf]
    rw [hfinal]
    generalize (pr.getD req.priority) = prr
    generalize (resolveDue dd req.due_date) = ddd
    constructor
    · intro rid' req' hr'
      rw [mget_mset] at hr'
      by_cases hk : rid = rid'
      · rw [if_pos hk] at hr'
        injection hr' with h2
        subst h2
        subst hk
        obtain ⟨hnd', hown⟩ := hwf.reqOwn rid req hr
        have hdisj : req.tasks.Disjoint (tasks.map Prod.fst) := by
          intro a ha hin
          obtain ⟨t, htl, _⟩ := hown a ha
          obtain ⟨p, hp, hp1⟩ := List.mem_map.mp hin
          have hf := hfresh p hp
          rw [hp1] at hf
          rw [hf] at htl
          cases htl
        refine ⟨List.Nodup.append hnd' hnd hdisj, ?_⟩
        intro tid' htid'
        rcases List.mem_append.mp htid' with hl | hrr
        · obtain ⟨t, htl, htr⟩ := hown tid' hl
          refine ⟨t, ?_, htr⟩
          rw [mget_foldl_mset_not_mem]
          · exact htl
          · rw [newTasks_keys]
            intro hin
            obtain ⟨p, hp, hp1⟩ := List.mem_map.mp hin
            have hf := hfresh p hp
            rw [hp1] at hf
            rw [hf] at htl
            cases htl
        · obtain ⟨p, hp, hp1⟩ := List.mem_map.mp hrr
          subst hp1
          refine ⟨newTask rid p.1 p.2 prr ddd now, ?_, rfl⟩
          apply mget_foldl_mset_mem
          · rw [newTasks_keys]
            exact hnd
          · exact List.mem_map.mpr ⟨p, hp, rfl⟩
      · rw [if_neg hk] at hr'
        obtain ⟨hnd', hown⟩ := hwf.reqOwn rid' req' hr'
        refine ⟨hnd', ?_⟩
        intro tid' htid'
        obtain ⟨t, htl, htr⟩ := hown tid' htid'
        refine ⟨t, ?_, htr⟩
        rw [mget_foldl_mset_not_mem]
        · exact htl
        · rw [newTasks_keys]
          intro hin
          obtain ⟨p, hp, hp1⟩ := List.mem_map.mp hin
          have hf := hfresh p hp
          rw [hp1] at hf
          rw [hf] at htl
          cases htl
    · intro tid' t' htl'
      rcases mget_foldl_mset_cases _ _ _ _ htl' with hmem | hold
      · obtain ⟨p, hp, hpe⟩ := List.mem_map.mp hmem
        cases hpe
        refine ⟨rfl, ?_, ?_⟩
        · simp [newTask]
        · intro sid hsid
          simp [newTask] at hsid
      · obtain ⟨hi, hnd', hown⟩ := hwf.taskOwn tid' t' hold
        exact ⟨hi, hnd', hown⟩

theorem newSubs_keys (rid tid : String) (subs : List (String × TaskSpec))
    (pr : String) (dd : Option String) (now : ℚ) :
    (subs.map (fun p => (p.1, newSubtask rid tid p.1 p.2 pr dd now))).map Prod.fst =
      subs.map Prod.fst := by
  rw [List.map_map]
  rfl

theorem stateWF_create_subtasks (s : TMState) (rid tid : String)
    (subs : List (String × TaskSpec)) (pr : Option String)
    (dd : Option String) (now : ℚ) (hwf : StateWF s)
    (hnd : (subs.map Prod.fst).Nodup)
    (hfresh : ∀ p ∈ subs, mget p.1 s.subtasks = none) :
    StateWF (stateOf (create_subtasks s rid tid subs pr dd now) s) := by
  cases hr : mget rid s.requests with
  | none =>
    have hfinal : stateOf (create_subtasks s rid tid subs pr dd now) s = s := by
      simp [create_subtasks, hr, stateOf]
    rw [hfinal]
    exact hwf
  | some req =>
    cases ht : mget tid s.tasks with
    | none =>
      have hfinal : stateOf (create_subtasks s rid tid subs pr dd now) s = s := by
        simp [create_subtasks, hr, ht, stateOf]
      rw [hfinal]
      exact hwf
    | some task =>
      have hfinal : stateOf (create_subtasks s rid tid subs pr dd now) s =
          ⟨s.requests,
           mset tid ({ task with subtasks := task.subtasks ++ subs.map Prod.fst }) s.tasks,
           (subs.map (fun p => (p.1, newSubtask rid tid p.1 p.2 (pr.getD task.priority)
               (resolveDue dd task.due_date) now))).foldl
             (fun acc p => mset p.1 p.2 acc) s.subtasks⟩ := by
        simp [create_subtasks, hr, ht, stateOf]
      rw [hfinal]
      generalize (pr.getD task.priority) = prr
      generalize (resolveDue dd task.due_date) = ddd
      have hown0 := hwf.taskOwn tid task ht
      constructor
      · intro rid' req' hr'
        obtain ⟨hnd', hown⟩ := hwf.reqOwn rid' req' hr'
        refine ⟨hnd', ?_⟩
        intro tid' htid'
        obtain ⟨t, htl, htr⟩ := hown tid' htid'
        by_cases hk : tid = tid'
        · subst hk
          rw [ht] at htl
          cases htl
          exact ⟨{ task with subtasks := task.subtasks ++ subs.map Prod.fst },
            by rw [mget_mset, if_pos rfl], htr⟩
        · exact ⟨t, by rw [mget_mset, if_neg hk]; exact htl, htr⟩
      · intro tid' t' htl'
        rw [mget_mset] at htl'
        by_cases hk : tid = tid'
        · rw [if_pos hk] at htl'
          injection htl' with h2
          subst h2
          subst hk
          obtain ⟨hi, hndsub, hownS⟩ := hown0
          have hdisj : task.subtasks.Disjoint (subs.map Prod.fst) := by
            intro a ha hin
            obtain ⟨st, hstl, _⟩ := hownS a ha
            obtain ⟨p, hp, hp1⟩ := List.mem_map.mp hin
            have hf := hfresh p hp
            rw [hp1] at hf
            rw [hf] at hstl
            cases hstl
          refine ⟨hi, List.Nodup.append hndsub hnd hdisj, ?_⟩
          intro sid' hsid'
          rcases List.mem_append.mp hsid' with hl | hrr
          · obtain ⟨st, hstl, hstid⟩ := hownS sid' hl
            refine ⟨st, ?_, hstid⟩
            rw [mget_foldl_mset_not_mem]
            · exact hstl
            · rw [newSubs_keys]
              intro hin
              obtain ⟨p, hp, hp1⟩ := List.mem_map.mp hin
              have hf := hfresh p hp
              rw [hp1] at hf
              rw [hf] at hstl
              cases hstl
          · obtain ⟨p, hp, hp1⟩ := List.mem_map.mp hrr
            subst hp1
            refine ⟨newSubtask rid tid p.1 p.2 prr ddd now, ?_, rfl⟩
            apply mget_foldl_mset_mem
            · rw [newSubs_keys]
              exact hnd
            · exact List.mem_map.mpr ⟨p, hp, rfl⟩
        · rw [if_neg hk] at htl'
          obtain ⟨hi, hnd', hown⟩ := hwf.taskOwn tid' t' htl'
          refine ⟨hi, hnd', ?_⟩
          intro sid' hsid'
          obtain ⟨st, hstl, hstid⟩ := hown sid' hsid'
          refine ⟨st, ?_, hstid⟩
          rw [mget_foldl_mset_not_mem]
          · exact hstl
          · rw [newSubs_keys]
            intro hin
            obtain ⟨p, hp, hp1⟩ := List.mem_map.mp hin
            have hf := hfresh p hp
            rw [hp1] at hf
            rw [hf] at hstl
            cases hstl

/-- One caller-level mutating operation, carrying the generated uuid ids
and the clock reading it consumes.  `list_requests` and
`open_task_details` read but never write the three mappings, so they have
no step. -/
inductive Op where
  | plan (request_id : String) (tasks : List (String × TaskSpec))
      (original_request : String) (split_details : Option String)
      (priority : String) (due_date : Option String) (now : ℚ)
  | next (request_id : String)
  | markDone (request_id task_id : String) (subtask_id : Option String)
      (status : String) (details : Option String) (now : ℚ)
  | approveTask (request_id task_id : String) (subtask_id : Option String) (now : ℚ)
  | approveRequest (request_id : String) (now : ℚ)
  | addTasks (request_id : String) (tasks : List (String × TaskSpec))
      (priority due_date : Option String) (now : ℚ)
  | update (request_id task_id : String)
      (subtask_id title description priority due_date : Option String)
  | del (request_id task_id : String) (subtask_id : Option String)
  | createSubs (request_id task_id : String) (subtasks : List (String × TaskSpec))
      (priority due_date : Option String) (now : ℚ)
  | notify (request_id task_id : String) (event : String)
      (subtask_id : Option String) (details : Option String) (now : ℚ)

/-- The state after one operation (a raised failure leaves the state as it
was, matching the source where every `raise` precedes any mutation). -/
def applyOp (op : Op) (s : TMState) : TMState :=
  match op with
  | .plan rid tasks orig split pr dd now =>
      (request_planning s rid tasks orig split pr dd now).2
  | .next rid => stateOf (get_next_task s rid) s
  | .markDone rid tid sub st det now =>
      stateOf (mark_task_done s rid tid sub st det now) s
  | .approveTask rid tid sub now =>
      stateOf (approve_task_completion s rid tid sub now) s
  | .approveRequest rid now => stateOf (approve_request_completion s rid now) s
  | .addTasks rid tasks pr dd now =>
      stateOf (add_tasks_to_request s rid tasks pr dd now) s
  | .update rid tid sub t d p dd =>
      stateOf (update_task s rid tid sub t d p dd) s
  | .del rid tid sub => stateOf (delete_task s rid tid sub) s
  | .createSubs rid tid subs pr dd now =>
      stateOf (create_subtasks s rid tid subs pr dd now) s
  | .notify rid tid ev sub det now =>
      stateOf (notify_task_event s rid tid ev sub det now) s

/-- What the `uuid4` draws guarantee: freshly generated ids are pairwise
distinct and absent from the mapping they are inserted into. -/
def opFresh (op : Op) (s : TMState) : Prop :=
  match op with
  | .plan _ tasks _ _ _ _ _ =>
      (tasks.map Prod.fst).Nodup ∧ ∀ p ∈ tasks, mget p.1 s.tasks = none
  | .addTasks _ tasks _ _ _ =>
      (tasks.map Prod.fst).Nodup ∧ ∀ p ∈ tasks, mget p.1 s.tasks = none
  | .createSubs _ _ subs _ _ _ =>
      (subs.map Prod.fst).Nodup ∧ ∀ p ∈ subs, mget p.1 s.subtasks = none
  | _ => True

/-- States reachable from the empty initial state by any sequence of
operations whose generated ids are fresh. -/
inductive Reachable : TMState → Prop where
  | init : Reachable initState
  | step (op : Op) (s : TMState) :
      Reachable s → opFresh op s → Reachable (applyOp op s)

theorem stateWF_applyOp (op : Op) (s : TMState) (hwf : StateWF s)
    (hf : opFresh op s) : StateWF (applyOp op s) := by
  cases op with
  | plan rid tasks orig split pr dd now =>
    exact stateWF_request_planning s rid tasks orig split pr dd now hwf hf.1 hf.2
  | next rid => exact stateWF_get_next_task s rid hwf
  | markDone rid tid sub st det now =>
    exact stateWF_mark_task_done s rid tid sub st det now hwf
  | approveTask rid tid sub now =>
    exact stateWF_approve_task_completion s rid tid sub now hwf
  | approveRequest rid now =>
    exact stateWF_approve_request_completion s rid now hwf
  | addTasks rid tasks pr dd now =>
    exact stateWF_add_tasks_to_request s rid tasks pr dd now hwf hf.1 hf.2
  | update rid tid sub t d p dd =>
    exact stateWF_update_task s rid tid sub t d p dd hwf
  | del rid tid sub => exact stateWF_delete_task s rid tid sub hwf
  | createSubs rid tid subs pr dd now =>
    exact stateWF_create_subtasks s rid tid subs pr dd now hwf hf.1 hf.2
  | notify rid tid ev sub det now =>
    exact stateWF_notify_task_event s rid tid ev sub det now hwf

theorem stateWF_reachable {s : TMState} (h : Reachable s) : StateWF s := by
  induction h with
  | init => exact stateWF_init
  | step op s hs hf ih => exact stateWF_applyOp op s ih hf

/-- **C10.** After any sequence of operations from the empty initial state
(with the uuid-generated ids fresh, as `uuid4` guarantees), the three
top-level mappings are referentially consistent: every task id listed in a
request's task sequence is a key of the task mapping whose record's
`request_id` names the owning request, and every subtask id listed in a
task's subtask sequence is a key of the subtask mapping whose record's
`task_id` names the owning task; in particular the deleting operations
remove the mapping entry and the owner's sequence entry together. -/
theorem refIntegrity_reachable (s : TMState) (h : Reachable s) :
    RefIntegrity s :=
  (stateWF_reachable h).refIntegrity

/-- Witness for C10: a concrete two-step run (plan one request with one
task, then create one subtask under it). -/
theorem refIntegrity_reachable_witness :
    RefIntegrity
      (applyOp (.createSubs "r1" "t1" [("s1", ⟨"S", "E"⟩)] none none 1)
        (applyOp (.plan "r1" [("t1", ⟨"T", "D"⟩)] "o" none "MEDIUM" none 0)
          initState)) :=
  refIntegrity_reachable _
    (.step _ _ (.step _ _ .init ⟨by decide, by decide⟩) ⟨by decide, by decide⟩)

end TaskMaster
